import Mathlib

/-!
Verification development for the "places" restaurant tracker server
(production variant: the Express + SQLite server embedded alongside the
repository README; the development variant in server.js is a strict subset
of it).  The SQL statements and JavaScript request handlers are shallowly
embedded as pure Lean functions over an explicit database state.

Modelling conventions, stated once:
* SQLite TEXT columns that may be NULL are `Option String`; INTEGER
  booleans (`liked`, `has_happy_hour`) are stored as `Bool` since every
  write stores `x ? 1 : 0` and every read applies Boolean().
* `created_at` / `updated_at` timestamps are real-time values outside the
  embedding and are omitted from the row type; no claim mentions them.
* JavaScript string operations (trim, split, toLowerCase inside LIKE) are
  re-implemented structurally over `List Char` so that every definition
  reduces in the kernel.
* SQLite LIKE is case-insensitive on ASCII; every LIKE pattern built by
  the server has the shape percent-term-percent, so it is modelled as a
  case-insensitive substring test.  (No request in any claim contains the
  LIKE wildcard characters.)
* node-sqlite3 runs all statements of one request sequentially on one
  connection; the promise fan-out in the handlers only reorders statements
  of distinct tables or the insert-or-ignore statements of one category,
  which commute, so the embedding processes each category list left to
  right.
-/

/-! ## String utilities (structural re-implementations of the JS/SQL ones) -/

/-- Whitespace test used by JavaScript String.prototype.trim (ASCII part;
no request in the claims contains exotic unicode whitespace). -/
def isWS (c : Char) : Bool :=
  c == ' ' || c == '\t' || c == '\n' || c == '\r'

/-- Character-list trim: drop whitespace on both ends. -/
def trimChars (l : List Char) : List Char :=
  ((l.dropWhile isWS).reverse.dropWhile isWS).reverse

/-- Models JavaScript String.prototype.trim. -/
def trimStr (s : String) : String :=
  String.mk (trimChars s.data)

/-- Models String.prototype.toLowerCase restricted to ASCII, which is also
the case folding SQLite LIKE applies. -/
def lowerStr (s : String) : String :=
  String.mk (s.data.map Char.toLower)

/-- Does the pattern occur at the head of the haystack? -/
def startsWithL : List Char → List Char → Bool
  | [], _ => true
  | _ :: _, [] => false
  | p :: ps, h :: hs => p == h && startsWithL ps hs

/-- Does the pattern occur as a contiguous substring of the haystack? -/
def hasSub (pat : List Char) : List Char → Bool
  | [] => pat.isEmpty
  | c :: t => startsWithL pat (c :: t) || hasSub pat t

/-- Models the SQL test `hay LIKE '%pat%'` (case-insensitive substring). -/
def containsCI (hay pat : String) : Bool :=
  hasSub (lowerStr pat).data (lowerStr hay).data

/-- Accumulator-passing splitter; models JavaScript String.split(ch). -/
def splitChAux (ch : Char) : List Char → List Char → List String
  | [], acc => [String.mk acc.reverse]
  | c :: rest, acc =>
      if c == ch then String.mk acc.reverse :: splitChAux ch rest []
      else splitChAux ch rest (c :: acc)

/-- Models JavaScript String.split(ch) for a one-character separator. -/
def splitCh (ch : Char) (s : String) : List String :=
  splitChAux ch s.data []

/-- Character-level data of a GROUP_CONCAT result (comma separator). -/
def joinCommaData : List String → List Char
  | [] => []
  | [x] => x.data
  | x :: y :: t => x.data ++ ',' :: joinCommaData (y :: t)

/-- Models SQLite GROUP_CONCAT over an already deduplicated name list. -/
def joinComma (l : List String) : String :=
  String.mk (joinCommaData l)

/-- First-occurrence deduplication; models the DISTINCT inside
GROUP_CONCAT(DISTINCT x) with the scan order of the join. -/
def dedupFirst : List String → List String
  | [] => []
  | x :: xs => x :: (dedupFirst xs).filter (fun y => y != x)

/-! ## Data model: the SQLite schema as explicit state -/

/-- A row of the restaurants table.  Numeric latitude/longitude are carried
as integers: no claim performs arithmetic on them. -/
structure Restaurant where
  id : Nat
  name : String
  neighborhood : Option String := none
  borough : Option String := none
  status : Option String := none
  liked : Bool := false
  happy_hour : Option String := none
  happy_hour_start_time : Option String := none
  happy_hour_end_time : Option String := none
  happy_hour_data : Option String := none
  has_happy_hour : Bool := false
  notes : Option String := none
  what_to_order : Option String := none
  website_link : Option String := none
  latitude : Option Int := none
  longitude : Option Int := none
  deriving DecidableEq, Repr

/-- A row of the cuisines / types / neighborhoods lookup tables. -/
structure Lookup where
  id : Nat
  name : String
  deriving DecidableEq, Repr

/-- A row of the tags lookup table.  Modelled from the spec: the schema of
the tags table is not under src/; per the data model a tag carries a color
hex string with default value given below when absent. -/
structure TagRow where
  id : Nat
  name : String
  color : String := "#6B7280"
  deriving DecidableEq, Repr

/-- The whole database file.  Join-table rows are (restaurant_id,
lookup_id) pairs; modelled from the spec: the join-table schema is not
under src/ and per the data model the (restaurant, lookup) pair is unique,
so inserting a duplicate pair is a constraint error.  Foreign keys are not
enforced: SQLite leaves them off unless a pragma enables them, and the
server never does. -/
structure DB where
  restaurants : List Restaurant := []
  cuisines : List Lookup := []
  types : List Lookup := []
  neighborhoods : List Lookup := []
  tags : List TagRow := []
  restaurant_cuisines : List (Nat × Nat) := []
  restaurant_types : List (Nat × Nat) := []
  restaurant_neighborhoods : List (Nat × Nat) := []
  restaurant_tags : List (Nat × Nat) := []
  deriving DecidableEq, Repr

/-! ## Generic lookup-table and join-table operations -/

/-- Largest id in use in a table (0 when empty); SQLite assigns
largest-rowid-plus-one to a fresh AUTOINCREMENT-style insert. -/
def maxIdBy (getI : α → Nat) : List α → Nat
  | [] => 0
  | r :: t => max (getI r) (maxIdBy getI t)

/-- Models `INSERT OR IGNORE INTO table (name) VALUES (nm)`: create the row
when no row has that exact name, otherwise leave the table unchanged. -/
def insertOrIgnoreTbl (getN : α → String) (getI : α → Nat)
    (mkRow : Nat → String → α) (tbl : List α) (nm : String) : List α :=
  if tbl.any (fun l => getN l == nm) then tbl
  else tbl ++ [mkRow (maxIdBy getI tbl + 1) nm]

/-- Models `SELECT id FROM table WHERE name = nm`. -/
def idsForName (getN : α → String) (getI : α → Nat)
    (tbl : List α) (nm : String) : List Nat :=
  (tbl.filter (fun l => getN l == nm)).map getI

/-- Models `INSERT INTO join (restaurant_id, x_id) SELECT rid, id ...`:
each selected id produces one row; a duplicate (restaurant, lookup) pair
violates the uniqueness constraint and fails the statement. -/
def insertPairs (j : List (Nat × Nat)) (rid : Nat) :
    List Nat → Option (List (Nat × Nat))
  | [] => some j
  | i :: rest =>
      if (rid, i) ∈ j then none
      else insertPairs (j ++ [(rid, i)]) rid rest

/-- One category of the relationship writer: for each supplied name in
order, trim it, insert-or-ignore the lookup row, then link the restaurant
to every lookup id carrying that name.  Stops with none on the first
constraint error (the surrounding transaction then rolls back). -/
def addNames (getN : α → String) (getI : α → Nat)
    (mkRow : Nat → String → α) (tbl : List α) (j : List (Nat × Nat))
    (rid : Nat) : List String → Option (List α × List (Nat × Nat))
  | [] => some (tbl, j)
  | nm :: rest =>
      let t := insertOrIgnoreTbl getN getI mkRow tbl (trimStr nm)
      match insertPairs j rid (idsForName getN getI t (trimStr nm)) with
      | none => none
      | some j2 => addNames getN getI mkRow t j2 rid rest

/-- The update-path variant: first delete every join row of the restaurant
in this category, then re-insert the supplied names. -/
def rewriteNames (getN : α → String) (getI : α → Nat)
    (mkRow : Nat → String → α) (tbl : List α) (j : List (Nat × Nat))
    (rid : Nat) (names : List String) : Option (List α × List (Nat × Nat)) :=
  addNames getN getI mkRow tbl (j.filter (fun p => p.1 != rid)) rid names

/-- Plain-lookup instantiations. -/
def mkLookup (i : Nat) (n : String) : Lookup := { id := i, name := n }

/-- Tag instantiation: `INSERT OR IGNORE INTO tags (name) VALUES (?)`
leaves the color at its schema default. -/
def mkTag (i : Nat) (n : String) : TagRow := { id := i, name := n }

/-! ## Aggregation and output shaping (the SELECT with LEFT JOINs) -/

/-- Join-table lookup ids attached to one restaurant, in table scan
order: models the rows the LEFT JOIN contributes. -/
def joinIdsFor (j : List (Nat × Nat)) (rid : Nat) : List Nat :=
  (j.filter (fun p => p.1 == rid)).map (fun p => p.2)

/-- Names reached through the join (a dangling lookup id yields NULL and
is dropped by GROUP_CONCAT). -/
def namesByIds (getN : α → String) (getI : α → Nat)
    (tbl : List α) (ids : List Nat) : List String :=
  ids.filterMap (fun i => (tbl.find? (fun l => getI l == i)).map getN)

/-- Models GROUP_CONCAT(DISTINCT name-expression): none is SQL NULL (no
joined row produced a value). -/
def aggOpt (names : List String) : Option String :=
  match dedupFirst names with
  | [] => none
  | l => some (joinComma l)

/-- The four name aggregates of one restaurant row. -/
def cuisineNames (st : DB) (rid : Nat) : List String :=
  dedupFirst (namesByIds Lookup.name Lookup.id st.cuisines
    (joinIdsFor st.restaurant_cuisines rid))

def typeNames (st : DB) (rid : Nat) : List String :=
  dedupFirst (namesByIds Lookup.name Lookup.id st.types
    (joinIdsFor st.restaurant_types rid))

def neighborhoodNames (st : DB) (rid : Nat) : List String :=
  dedupFirst (namesByIds Lookup.name Lookup.id st.neighborhoods
    (joinIdsFor st.restaurant_neighborhoods rid))

def tagNames (st : DB) (rid : Nat) : List String :=
  dedupFirst (namesByIds TagRow.name TagRow.id st.tags
    (joinIdsFor st.restaurant_tags rid))

/-- Models GROUP_CONCAT(DISTINCT tg.name || chr(58) || tg.color), the tag
transport strings of the row output. -/
def tagPairStrings (st : DB) (rid : Nat) : List String :=
  dedupFirst (namesByIds (fun t => t.name ++ ":" ++ t.color) TagRow.id st.tags
    (joinIdsFor st.restaurant_tags rid))

/-- A shaped tag of the JSON output. -/
structure TagOut where
  name : String
  color : String
  deriving DecidableEq, Repr

/-- Models the tag shaping arrow function: split on the colon, take the
first two components, default the color when missing or empty. -/
def shapeTag (s : String) : TagOut :=
  match splitCh ':' s with
  | [] => { name := "", color := "#6B7280" }
  | [n] => { name := n, color := "#6B7280" }
  | n :: c :: _ => { name := n, color := if c == "" then "#6B7280" else c }

/-- Models `row.field ? row.field.split(sep) : []` - both SQL NULL and the
empty string are falsy in JavaScript. -/
def splitIfTruthy (agg : Option String) : List String :=
  match agg with
  | none => []
  | some s => if s == "" then [] else splitCh ',' s

/-- One JSON restaurant object as produced by the list and single-fetch
handlers: the spread of the row plus the four parsed association lists. -/
structure Shaped where
  id : Nat
  name : String
  neighborhood : Option String
  borough : Option String
  status : Option String
  liked : Bool
  happy_hour : Option String
  happy_hour_start_time : Option String
  happy_hour_end_time : Option String
  happy_hour_data : Option String
  has_happy_hour : Bool
  notes : Option String
  what_to_order : Option String
  website_link : Option String
  latitude : Option Int
  longitude : Option Int
  cuisines : List String
  types : List String
  neighborhoods : List String
  tags : List TagOut
  deriving DecidableEq, Repr

/-- Row shaping shared by the list and single-fetch handlers. -/
def shape (st : DB) (r : Restaurant) : Shaped :=
  { id := r.id, name := r.name, neighborhood := r.neighborhood,
    borough := r.borough, status := r.status, liked := r.liked,
    happy_hour := r.happy_hour,
    happy_hour_start_time := r.happy_hour_start_time,
    happy_hour_end_time := r.happy_hour_end_time,
    happy_hour_data := r.happy_hour_data,
    has_happy_hour := r.has_happy_hour, notes := r.notes,
    what_to_order := r.what_to_order, website_link := r.website_link,
    latitude := r.latitude, longitude := r.longitude,
    cuisines := splitIfTruthy (aggOpt (namesByIds Lookup.name Lookup.id
      st.cuisines (joinIdsFor st.restaurant_cuisines r.id))),
    types := splitIfTruthy (aggOpt (namesByIds Lookup.name Lookup.id
      st.types (joinIdsFor st.restaurant_types r.id))),
    neighborhoods := splitIfTruthy (aggOpt (namesByIds Lookup.name Lookup.id
      st.neighborhoods (joinIdsFor st.restaurant_neighborhoods r.id))),
    tags := (splitIfTruthy (aggOpt (namesByIds
      (fun t => t.name ++ ":" ++ t.color) TagRow.id st.tags
      (joinIdsFor st.restaurant_tags r.id)))).map shapeTag }

/-- Models GET /api/restaurants/:id - find the row, 404 as none. -/
def getRestaurantById (st : DB) (rid : Nat) : Option Shaped :=
  (st.restaurants.find? (fun r => r.id == rid)).map (shape st)

/-! ## The list query builder (GET /api/restaurants) -/

/-- Query parameters as express delivers them (strings; absent is none).
limit and offset are modelled as the numbers parseInt produces, with the
handler defaults. -/
structure ListQuery where
  search : Option String := none
  cuisines : Option String := none
  types : Option String := none
  tags : Option String := none
  neighborhoods : Option String := none
  boroughs : Option String := none
  status : Option String := none
  liked : Option String := none
  limit : Nat := 10000
  offset : Nat := 0
  deriving Repr

/-- JavaScript truthiness of a string parameter. -/
def truthyP : Option String → Bool
  | none => false
  | some s => s != ""

/-- Models `raw.split(sep-comma).map(trim).filter(nonempty)`. -/
def splitParam (raw : String) : List String :=
  ((splitCh ',' raw).map trimStr).filter (fun x => x != "")

/-- The value list a category parameter contributes. -/
def paramList : Option String → List String
  | none => []
  | some s => splitParam s

/-- Did the cuisines branch emit the HAVING keyword? -/
def emitsCuisines (q : ListQuery) : Bool :=
  truthyP q.cuisines && !(paramList q.cuisines).isEmpty

/-- Did the neighborhoods branch emit the HAVING keyword (it only does in
its not-cuisines branch)? -/
def emitsNeighborhoodsH (q : ListQuery) : Bool :=
  truthyP q.neighborhoods && !truthyP q.cuisines
    && !(paramList q.neighborhoods).isEmpty

/-- Did the types branch emit the HAVING keyword? -/
def emitsTypesH (q : ListQuery) : Bool :=
  truthyP q.types && !truthyP q.cuisines && !truthyP q.neighborhoods
    && !(paramList q.types).isEmpty

/-- The query builder appends an AND clause whenever an earlier category
parameter is truthy, even when that category emitted nothing because its
value list was empty after trimming; the resulting SQL has an AND with no
HAVING before it and fails to prepare (a 500 response).  This predicate
captures exactly those requests. -/
def malformedQuery (q : ListQuery) : Bool :=
  (truthyP q.neighborhoods && truthyP q.cuisines
    && !(paramList q.neighborhoods).isEmpty && !emitsCuisines q) ||
  (truthyP q.types && (truthyP q.cuisines || truthyP q.neighborhoods)
    && !(paramList q.types).isEmpty
    && !(emitsCuisines q || emitsNeighborhoodsH q)) ||
  (truthyP q.tags
    && (truthyP q.cuisines || truthyP q.types || truthyP q.neighborhoods)
    && !(paramList q.tags).isEmpty
    && !(emitsCuisines q || emitsNeighborhoodsH q || emitsTypesH q))

/-- Models `agg LIKE '%v%'` on a GROUP_CONCAT aggregate: NULL is not
matched. -/
def aggLike (agg : Option String) (v : String) : Bool :=
  match agg with
  | none => false
  | some s => containsCI s v

/-- OR of the per-value LIKE tests of one category. -/
def anyLike (vals : List String) (agg : Option String) : Bool :=
  vals.any (fun v => aggLike agg v)

/-- The category conditions the HAVING clause conjoins, in the order the
builder appends them (cuisines, neighborhoods, types, tags).  A category
contributes one only when its parameter is truthy and its trimmed value
list is nonempty. -/
def catConds (st : DB) (q : ListQuery) (r : Restaurant) : List Bool :=
  (if truthyP q.cuisines && !(paramList q.cuisines).isEmpty then
    [anyLike (paramList q.cuisines) (aggOpt (namesByIds Lookup.name Lookup.id
      st.cuisines (joinIdsFor st.restaurant_cuisines r.id)))] else []) ++
  (if truthyP q.neighborhoods && !(paramList q.neighborhoods).isEmpty then
    [anyLike (paramList q.neighborhoods)
      (aggOpt (namesByIds Lookup.name Lookup.id st.neighborhoods
        (joinIdsFor st.restaurant_neighborhoods r.id)))] else []) ++
  (if truthyP q.types && !(paramList q.types).isEmpty then
    [anyLike (paramList q.types) (aggOpt (namesByIds Lookup.name Lookup.id
      st.types (joinIdsFor st.restaurant_types r.id)))] else []) ++
  (if truthyP q.tags && !(paramList q.tags).isEmpty then
    [anyLike (paramList q.tags) (aggOpt (namesByIds TagRow.name TagRow.id
      st.tags (joinIdsFor st.restaurant_tags r.id)))] else [])

/-- Models `field LIKE '%s%'` on a nullable column. -/
def fieldLike (f : Option String) (s : String) : Bool :=
  match f with
  | none => false
  | some x => containsCI x s

/-- The eight-way OR the search term contributes: name, notes,
what_to_order, borough, and the four name aggregates. -/
def searchCond (st : DB) (r : Restaurant) (s : String) : Bool :=
  containsCI r.name s || fieldLike r.notes s || fieldLike r.what_to_order s
    || fieldLike r.borough s
    || aggLike (aggOpt (namesByIds Lookup.name Lookup.id st.cuisines
        (joinIdsFor st.restaurant_cuisines r.id))) s
    || aggLike (aggOpt (namesByIds Lookup.name Lookup.id st.types
        (joinIdsFor st.restaurant_types r.id))) s
    || aggLike (aggOpt (namesByIds Lookup.name Lookup.id st.neighborhoods
        (joinIdsFor st.restaurant_neighborhoods r.id))) s
    || aggLike (aggOpt (namesByIds TagRow.name TagRow.id st.tags
        (joinIdsFor st.restaurant_tags r.id))) s

/-- The pre-grouping WHERE clause: equality filters on borough, status and
liked. -/
def preFilter (q : ListQuery) (r : Restaurant) : Bool :=
  (match q.boroughs with
   | none => true
   | some b => if b == "" then true else r.borough == some b) &&
  (match q.status with
   | none => true
   | some s => if s == "" then true else r.status == some s) &&
  (match q.liked with
   | none => true
   | some v => r.liked == (v == "true"))

/-- The HAVING clause as one boolean: the conjunction of the category
conditions, with the search disjunct appended last (SQL gives AND
precedence over OR, so the clause reads all-categories-pass OR search).
With no category condition and no search there is no HAVING clause at
all. -/
def postGroupPass (st : DB) (q : ListQuery) (r : Restaurant) : Bool :=
  let conds := catConds st q r
  match truthyP q.search, q.search with
  | true, some s =>
      if conds.isEmpty then searchCond st r s
      else conds.all (fun b => b) || searchCond st r s
  | _, _ => if conds.isEmpty then true else conds.all (fun b => b)

/-- Insertion step of ORDER BY r.name (ascending, stable). -/
def insertByName (r : Restaurant) : List Restaurant → List Restaurant
  | [] => [r]
  | x :: xs => if r.name ≤ x.name then r :: x :: xs else x :: insertByName r xs

/-- Models ORDER BY r.name. -/
def sortByName (l : List Restaurant) : List Restaurant :=
  l.foldr insertByName []

/-- The successful response body of GET /api/restaurants: filter, group,
apply HAVING, order, paginate, shape. -/
def restaurantRows (st : DB) (q : ListQuery) : List Shaped :=
  ((((sortByName ((st.restaurants.filter (preFilter q)).filter
    (postGroupPass st q))).drop q.offset).take q.limit).map (shape st))

/-- Models GET /api/restaurants: a malformed dynamic query fails to prepare
and produces the 500 branch, every other request returns the shaped rows. -/
def listRestaurants (st : DB) (q : ListQuery) : Except String (List Shaped) :=
  if malformedQuery q then Except.error "SQL error near AND"
  else Except.ok (restaurantRows st q)

/-! ## Mutation handlers: POST, PUT, DELETE -/

/-- Request body of POST /api/restaurants.  Destructuring defaults of the
handler (status Unvisited, liked false, has_happy_hour false, empty lists)
are applied inside the handler below; none models an absent field. -/
structure CreateReq where
  name : Option String := none
  neighborhood : Option String := none
  borough : Option String := none
  status : Option String := none
  liked : Option Bool := none
  happy_hour : Option String := none
  happy_hour_start_time : Option String := none
  happy_hour_end_time : Option String := none
  happy_hour_data : Option String := none
  has_happy_hour : Option Bool := none
  notes : Option String := none
  what_to_order : Option String := none
  website_link : Option String := none
  latitude : Option Int := none
  longitude : Option Int := none
  cuisines : List String := []
  types : List String := []
  neighborhoods : List String := []
  tags : List String := []
  deriving Repr

/-- Request body of PUT /api/restaurants/:id (same shape, all scalars
optional, list fields default to empty exactly as the destructuring
does - an explicitly empty list is indistinguishable from an omitted
one). -/
structure UpdateReq where
  name : Option String := none
  neighborhood : Option String := none
  borough : Option String := none
  status : Option String := none
  liked : Option Bool := none
  happy_hour : Option String := none
  happy_hour_start_time : Option String := none
  happy_hour_end_time : Option String := none
  happy_hour_data : Option String := none
  has_happy_hour : Option Bool := none
  notes : Option String := none
  what_to_order : Option String := none
  website_link : Option String := none
  latitude : Option Int := none
  longitude : Option Int := none
  cuisines : List String := []
  types : List String := []
  neighborhoods : List String := []
  tags : List String := []
  deriving Repr

inductive PostResult where
  | created (id : Nat)
  | badRequest
  | serverError
  deriving DecidableEq, Repr

inductive PutResult where
  | updated
  | badRequest
  | notFound
  | serverError
  deriving DecidableEq, Repr

inductive DeleteResult where
  | deleted
  | notFound
  deriving DecidableEq, Repr

/-- HTTP status code of a create outcome. -/
def PostResult.code : PostResult → Nat
  | .created _ => 200
  | .badRequest => 400
  | .serverError => 500

/-- HTTP status code of an update outcome. -/
def PutResult.code : PutResult → Nat
  | .updated => 200
  | .badRequest => 400
  | .notFound => 404
  | .serverError => 500

/-- HTTP status code of a delete outcome. -/
def DeleteResult.code : DeleteResult → Nat
  | .deleted => 200
  | .notFound => 404

/-- Models handleRestaurantRelationships: link all four category lists to
the fresh restaurant inside the open transaction; none means some
statement failed and the transaction rolls back. -/
def handleRestaurantRelationships (st : DB) (rid : Nat) (b : CreateReq) :
    Option DB := do
  let (c, jc) ← addNames Lookup.name Lookup.id mkLookup st.cuisines
    st.restaurant_cuisines rid b.cuisines
  let (t, jt) ← addNames Lookup.name Lookup.id mkLookup st.types
    st.restaurant_types rid b.types
  let (n, jn) ← addNames Lookup.name Lookup.id mkLookup st.neighborhoods
    st.restaurant_neighborhoods rid b.neighborhoods
  let (g, jg) ← addNames TagRow.name TagRow.id mkTag st.tags
    st.restaurant_tags rid b.tags
  some { st with
    cuisines := c
    restaurant_cuisines := jc
    types := t
    restaurant_types := jt
    neighborhoods := n
    restaurant_neighborhoods := jn
    tags := g
    restaurant_tags := jg }

/-- Models POST /api/restaurants. -/
def postRestaurant (st : DB) (b : CreateReq) : PostResult × DB :=
  match b.name with
  | none => (.badRequest, st)
  | some nm =>
      if trimStr nm == "" then (.badRequest, st)
      else
        let rid := maxIdBy Restaurant.id st.restaurants + 1
        let row : Restaurant := {
          id := rid, name := trimStr nm, neighborhood := b.neighborhood,
          borough := b.borough, status := some (b.status.getD "Unvisited"),
          liked := b.liked.getD false, happy_hour := b.happy_hour,
          happy_hour_start_time := b.happy_hour_start_time,
          happy_hour_end_time := b.happy_hour_end_time,
          happy_hour_data := match b.happy_hour_data with
            | some s => if s == "" then none else some s
            | none => none,
          has_happy_hour := b.has_happy_hour.getD false,
          notes := b.notes, what_to_order := b.what_to_order,
          website_link := b.website_link,
          latitude := b.latitude, longitude := b.longitude }
        let st1 := { st with restaurants := st.restaurants ++ [row] }
        match handleRestaurantRelationships st1 rid b with
        | none => (.serverError, st)
        | some st2 => (.created rid, st2)

/-- Number of scalar fields the update body supplies (the length of the
updates array before the timestamp is appended). -/
def scalarCount (b : UpdateReq) : Nat :=
  [b.name.isSome, b.neighborhood.isSome, b.borough.isSome, b.status.isSome,
   b.liked.isSome, b.happy_hour.isSome, b.happy_hour_start_time.isSome,
   b.happy_hour_end_time.isSome, b.happy_hour_data.isSome,
   b.has_happy_hour.isSome, b.notes.isSome, b.what_to_order.isSome,
   b.website_link.isSome, b.latitude.isSome, b.longitude.isSome].count true

/-- The UPDATE restaurants SET ... assignment applied to a matching row
(updated_at is a real-time value outside the embedding). -/
def applyScalars (b : UpdateReq) (r : Restaurant) : Restaurant :=
  { r with
    name := match b.name with | some n => trimStr n | none => r.name,
    neighborhood := match b.neighborhood with
      | some v => some v | none => r.neighborhood,
    borough := match b.borough with | some v => some v | none => r.borough,
    status := match b.status with | some v => some v | none => r.status,
    liked := b.liked.getD r.liked,
    happy_hour := match b.happy_hour with
      | some v => some v | none => r.happy_hour,
    happy_hour_start_time := match b.happy_hour_start_time with
      | some v => some v | none => r.happy_hour_start_time,
    happy_hour_end_time := match b.happy_hour_end_time with
      | some v => some v | none => r.happy_hour_end_time,
    happy_hour_data := match b.happy_hour_data with
      | some v => some v | none => r.happy_hour_data,
    has_happy_hour := b.has_happy_hour.getD r.has_happy_hour,
    notes := match b.notes with | some v => some v | none => r.notes,
    what_to_order := match b.what_to_order with
      | some v => some v | none => r.what_to_order,
    website_link := match b.website_link with
      | some v => some v | none => r.website_link,
    latitude := match b.latitude with | some v => some v | none => r.latitude,
    longitude := match b.longitude with
      | some v => some v | none => r.longitude }

/-- Models updateCuisinesTypesNeighborhoodsAndTags and its continuations:
every category guard reads length-at-least-zero, which always holds, so
all four categories are deleted and re-inserted on every pass. -/
def updateCuisinesTypesNeighborhoodsAndTags (st : DB) (rid : Nat)
    (b : UpdateReq) : Option DB := do
  let (c, jc) ← rewriteNames Lookup.name Lookup.id mkLookup st.cuisines
    st.restaurant_cuisines rid b.cuisines
  let (t, jt) ← rewriteNames Lookup.name Lookup.id mkLookup st.types
    st.restaurant_types rid b.types
  let (n, jn) ← rewriteNames Lookup.name Lookup.id mkLookup st.neighborhoods
    st.restaurant_neighborhoods rid b.neighborhoods
  let (g, jg) ← rewriteNames TagRow.name TagRow.id mkTag st.tags
    st.restaurant_tags rid b.tags
  some { st with
    cuisines := c
    restaurant_cuisines := jc
    types := t
    restaurant_types := jt
    neighborhoods := n
    restaurant_neighborhoods := jn
    tags := g
    restaurant_tags := jg }

/-- Models PUT /api/restaurants/:id.  The UPDATE statement and its
this.changes check run only when at least one scalar field is supplied;
an association-lists-only body skips the existence check entirely. -/
def putRestaurant (st : DB) (rid : Nat) (b : UpdateReq) : PutResult × DB :=
  if scalarCount b == 0 && b.cuisines.isEmpty && b.types.isEmpty
      && b.neighborhoods.isEmpty && b.tags.isEmpty then
    (.badRequest, st)
  else
    let step : Option DB :=
      if scalarCount b > 0 then
        if st.restaurants.any (fun r => r.id == rid) then
          some { st with restaurants := (st.restaurants.map
            (fun r => if r.id == rid then applyScalars b r else r)) }
        else none
      else some st
    match step with
    | none => (.notFound, st)
    | some st1 =>
        match updateCuisinesTypesNeighborhoodsAndTags st1 rid b with
        | none => (.serverError, st)
        | some st2 => (.updated, st2)

/-- Models DELETE /api/restaurants/:id: the handler deletes join rows in
restaurant_cuisines, restaurant_types and restaurant_tags (it never
touches restaurant_neighborhoods), then deletes the restaurant row; zero
changes there roll the transaction back with 404. -/
def deleteRestaurant (st : DB) (rid : Nat) : DeleteResult × DB :=
  let st1 := { st with
    restaurant_cuisines := st.restaurant_cuisines.filter (fun p => p.1 != rid),
    restaurant_types := st.restaurant_types.filter (fun p => p.1 != rid),
    restaurant_tags := st.restaurant_tags.filter (fun p => p.1 != rid) }
  let changes := (st1.restaurants.filter (fun r => r.id == rid)).length
  if changes == 0 then (.notFound, st)
  else (.deleted, { st1 with
    restaurants := st1.restaurants.filter (fun r => r.id != rid) })

/-! ## Well-formedness of a database state -/

/-- Sanity of a state as SQLite maintains it: distinct row ids, unique
lookup names (the UNIQUE constraint insert-or-ignore relies on), join rows
referencing existing restaurants, and tag colors free of the transport
delimiters.  (The buggy association-only PUT path can produce orphan join
rows; states reached that way are excluded here.) -/
def WF (st : DB) : Prop :=
  (st.restaurants.map Restaurant.id).Nodup ∧
  (st.cuisines.map Lookup.id).Nodup ∧ (st.cuisines.map Lookup.name).Nodup ∧
  (st.types.map Lookup.id).Nodup ∧ (st.types.map Lookup.name).Nodup ∧
  (st.neighborhoods.map Lookup.id).Nodup ∧
  (st.neighborhoods.map Lookup.name).Nodup ∧
  (st.tags.map TagRow.id).Nodup ∧ (st.tags.map TagRow.name).Nodup ∧
  (∀ p ∈ st.restaurant_cuisines, p.1 ∈ st.restaurants.map Restaurant.id) ∧
  (∀ p ∈ st.restaurant_types, p.1 ∈ st.restaurants.map Restaurant.id) ∧
  (∀ p ∈ st.restaurant_neighborhoods,
    p.1 ∈ st.restaurants.map Restaurant.id) ∧
  (∀ p ∈ st.restaurant_tags, p.1 ∈ st.restaurants.map Restaurant.id) ∧
  (∀ t ∈ st.tags, ',' ∉ t.color.data ∧ ':' ∉ t.color.data)

/-- The data-model invariant of the claims: association rows are unique
per (restaurant, lookup) pair in every join table. -/
def pairsOk (st : DB) : Prop :=
  st.restaurant_cuisines.Nodup ∧ st.restaurant_types.Nodup ∧
  st.restaurant_neighborhoods.Nodup ∧ st.restaurant_tags.Nodup

instance instDecWF (st : DB) : Decidable (WF st) := by
  unfold WF; exact inferInstance

instance instDecPairsOk (st : DB) : Decidable (pairsOk st) := by
  unfold pairsOk; exact inferInstance

/-! ## Spec-side predicates and concrete fixtures -/

/-- Follows the words of the spec (not the source): the search term appears
as a case-insensitive substring in the restaurant name, notes,
what-to-order field, borough, or in one of its aggregated
cuisine/type/neighborhood/tag names. -/
def specTextMatch (st : DB) (r : Restaurant) (s : String) : Bool :=
  containsCI r.name s || fieldLike r.notes s || fieldLike r.what_to_order s
    || fieldLike r.borough s
    || (cuisineNames st r.id ++ typeNames st r.id ++ neighborhoodNames st r.id
        ++ tagNames st r.id).any (fun nm => containsCI nm s)

/-- Is at least one set-membership category filter active (truthy parameter
with a nonempty trimmed value list)? -/
def anyCatActive (q : ListQuery) : Bool :=
  (truthyP q.cuisines && !(paramList q.cuisines).isEmpty) ||
  (truthyP q.neighborhoods && !(paramList q.neighborhoods).isEmpty) ||
  (truthyP q.types && !(paramList q.types).isEmpty) ||
  (truthyP q.tags && !(paramList q.tags).isEmpty)

/-- Follows the words of the spec (not the source): the restaurant matches
every active category filter, holding at least one requested value of each
as an exact member of its aggregated name list. -/
def specCatMatch (st : DB) (q : ListQuery) (r : Restaurant) : Prop :=
  ((truthyP q.cuisines && !(paramList q.cuisines).isEmpty) = true →
    ∃ v ∈ paramList q.cuisines, v ∈ cuisineNames st r.id) ∧
  ((truthyP q.neighborhoods && !(paramList q.neighborhoods).isEmpty) = true →
    ∃ v ∈ paramList q.neighborhoods, v ∈ neighborhoodNames st r.id) ∧
  ((truthyP q.types && !(paramList q.types).isEmpty) = true →
    ∃ v ∈ paramList q.types, v ∈ typeNames st r.id) ∧
  ((truthyP q.tags && !(paramList q.tags).isEmpty) = true →
    ∃ v ∈ paramList q.tags, v ∈ tagNames st r.id)

/-- The request of the cross-category filter claim. -/
def qItalianThaiManhattan : ListQuery :=
  { cuisines := some "Italian,Thai", boroughs := some "Manhattan" }

/-- Fixture: one Manhattan restaurant, id 1, with cuisine Italian and tag
brunch. -/
def stBase : DB :=
  { restaurants := [{ id := 1, name := "Alpha", borough := some "Manhattan" }]
    cuisines := [{ id := 1, name := "Italian" }]
    tags := [{ id := 1, name := "brunch" }]
    restaurant_cuisines := [(1, 1)]
    restaurant_tags := [(1, 1)] }

/-- Fixture: one Manhattan restaurant whose only cuisine is Italianate. -/
def stItalianate : DB :=
  { restaurants := [{ id := 1, name := "Alpha", borough := some "Manhattan" }]
    cuisines := [{ id := 1, name := "Italianate" }]
    restaurant_cuisines := [(1, 1)] }

/-- Fixture: the empty database file. -/
def stEmpty : DB := {}

/-- Fixture: one restaurant whose notes mention negroni and that has no
associations at all. -/
def stDante : DB :=
  { restaurants :=
      [{ id := 1, name := "Dante", notes := some "best negroni in town" }] }

/-! ## Lemmas about the string utilities -/

theorem string_mk_data (s : String) : String.mk s.data = s := by
  cases s; rfl

theorem string_data_append (a b : String) : (a ++ b).data = a.data ++ b.data := by
  cases a; cases b; rfl

theorem startsWithL_iff {p h : List Char} :
    startsWithL p h = true ↔ ∃ t, h = p ++ t := by
  induction p generalizing h with
  | nil => simp [startsWithL]
  | cons c p ih =>
    cases h with
    | nil => simp [startsWithL]
    | cons d hs =>
      simp only [startsWithL, Bool.and_eq_true, beq_iff_eq, ih]
      constructor
      · rintro ⟨rfl, t, rfl⟩
        exact ⟨t, rfl⟩
      · rintro ⟨t, ht⟩
        rw [List.cons_append] at ht
        injection ht with h1 h2
        exact ⟨h1.symm, t, h2⟩

theorem hasSub_iff {p h : List Char} :
    hasSub p h = true ↔ ∃ s t, h = s ++ p ++ t := by
  induction h with
  | nil =>
    cases p with
    | nil => simp [hasSub]
    | cons c t => simp [hasSub, List.append_eq_nil]
  | cons c hs ih =>
    simp only [hasSub, Bool.or_eq_true, startsWithL_iff, ih]
    constructor
    · rintro (⟨t, ht⟩ | ⟨s, t, ht⟩)
      · exact ⟨[], t, by simp [ht]⟩
      · exact ⟨c :: s, t, by simp [ht]⟩
    · rintro ⟨s, t, ht⟩
      cases s with
      | nil => exact Or.inl ⟨t, by simpa using ht⟩
      | cons c' s' =>
        rw [List.cons_append, List.cons_append] at ht
        injection ht with h1 h2
        exact Or.inr ⟨s', t, h2⟩

theorem hasSub_nil (l : List Char) : hasSub [] l = true := by
  cases l <;> simp [hasSub, startsWithL, List.isEmpty]

theorem hasSub_of_parts {p s t h : List Char} (hh : h = s ++ p ++ t) :
    hasSub p h = true := hasSub_iff.mpr ⟨s, t, hh⟩

theorem hasSub_of_sub_part {p m s t : List Char} (h : hasSub p m = true) :
    hasSub p (s ++ m ++ t) = true := by
  rcases hasSub_iff.mp h with ⟨a, b, rfl⟩
  exact hasSub_iff.mpr ⟨s ++ a, b ++ t, by simp⟩

theorem hasSub_split {p a b : List Char} {ch : Char} (hch : ch ∉ p)
    (h : hasSub p (a ++ ch :: b) = true) :
    hasSub p a = true ∨ hasSub p b = true := by
  rcases hasSub_iff.mp h with ⟨s, t, heq⟩
  rw [List.append_assoc] at heq
  rcases List.append_eq_append_iff.mp heq.symm with ⟨a', ha1, ha2⟩ | ⟨c', hc1, hc2⟩
  · -- a = s ++ a' and a' ++ (p ++ t)?  orientation check below
    subst ha1
    rcases List.append_eq_append_iff.mp ha2 with ⟨w, hw1, hw2⟩ | ⟨w, hw1, hw2⟩
    · subst hw1
      exact Or.inl (hasSub_of_parts (by rw [List.append_assoc]))
    · cases w with
      | nil =>
        simp at hw1
        subst hw1
        exact Or.inl (hasSub_of_parts (s := s) (t := []) (by simp))
      | cons w0 ws =>
        rw [List.cons_append] at hw2
        injection hw2 with h1 h2
        exact absurd (hw1 ▸ List.mem_append_right _ (List.mem_cons_self w0 ws))
          (h1 ▸ hch)
  · -- ch :: b = c' ++ (p ++ t) side
    cases c' with
    | nil =>
      simp at hc1 hc2
      cases p with
      | nil => exact Or.inl (hasSub_nil a)
      | cons p0 ps =>
        rw [List.cons_append] at hc2
        injection hc2 with h1 h2
        exact absurd (List.mem_cons_self p0 ps) (h1 ▸ hch)
    | cons c0 cs =>
      rw [List.cons_append] at hc2
      injection hc2 with h1 h2
      exact Or.inr (hasSub_of_parts (s := cs) (t := t)
        (by rw [h2, List.append_assoc]))

theorem joinCommaData_cons2 (x y : String) (t : List String) :
    joinCommaData (x :: y :: t) = x.data ++ ',' :: joinCommaData (y :: t) := rfl

theorem joinCommaData_decomp {nm : String} {l : List String} (h : nm ∈ l) :
    ∃ s t, joinCommaData l = s ++ nm.data ++ t := by
  induction l with
  | nil => cases h
  | cons x xs ih =>
    cases xs with
    | nil =>
      rcases List.mem_singleton.mp h with rfl
      exact ⟨[], [], by simp [joinCommaData]⟩
    | cons y ys =>
      rcases List.mem_cons.mp h with rfl | h2
      · exact ⟨[], ',' :: joinCommaData (y :: ys), by simp [joinCommaData_cons2]⟩
      · rcases ih h2 with ⟨s, t, ht⟩
        exact ⟨x.data ++ ',' :: s, t, by simp [joinCommaData_cons2, ht]⟩

theorem hasSub_joinCommaData {p : List Char} {l : List String} (hch : ',' ∉ p)
    (hl : l ≠ []) (h : hasSub p (joinCommaData l) = true) :
    ∃ nm ∈ l, hasSub p nm.data = true := by
  induction l with
  | nil => exact absurd rfl hl
  | cons x xs ih =>
    cases xs with
    | nil => exact ⟨x, List.mem_singleton.mpr rfl, h⟩
    | cons y ys =>
      rw [joinCommaData_cons2] at h
      rcases hasSub_split hch h with h1 | h2
      · exact ⟨x, List.mem_cons_self x _, h1⟩
      · rcases ih (by simp) h2 with ⟨nm, hmem, hsub⟩
        exact ⟨nm, List.mem_cons_of_mem x hmem, hsub⟩

theorem lowerStr_data (s : String) : (lowerStr s).data = s.data.map Char.toLower := by
  cases s; rfl

theorem comma_toLower : Char.toLower ',' = ',' := by decide

theorem joinCommaData_map_lower (l : List String) :
    (joinCommaData l).map Char.toLower = joinCommaData (l.map lowerStr) := by
  induction l with
  | nil => rfl
  | cons x xs ih =>
    cases xs with
    | nil => simp [joinCommaData, lowerStr_data]
    | cons y ys =>
      simp only [List.map_cons] at ih ⊢
      rw [joinCommaData_cons2, joinCommaData_cons2, List.map_append,
        List.map_cons, comma_toLower, ih, lowerStr_data]

theorem containsCI_joinComma_of_mem {nm : String} {l : List String} {v : String}
    (hm : nm ∈ l) (h : containsCI nm v = true) :
    containsCI (joinComma l) v = true := by
  unfold containsCI at h ⊢
  rw [show (lowerStr (joinComma l)).data = joinCommaData (l.map lowerStr) from by
    rw [lowerStr_data]; exact joinCommaData_map_lower l]
  have hm2 : lowerStr nm ∈ l.map lowerStr := List.mem_map_of_mem lowerStr hm
  rcases joinCommaData_decomp hm2 with ⟨s, t, ht⟩
  rw [ht]
  exact hasSub_of_sub_part h

theorem containsCI_joinComma_elim {l : List String} {v : String}
    (hch : ',' ∉ (lowerStr v).data) (hl : l ≠ [])
    (h : containsCI (joinComma l) v = true) :
    ∃ nm ∈ l, containsCI nm v = true := by
  unfold containsCI at h ⊢
  rw [show (lowerStr (joinComma l)).data = joinCommaData (l.map lowerStr) from by
    rw [lowerStr_data]; exact joinCommaData_map_lower l] at h
  rcases hasSub_joinCommaData hch (by simpa using hl) h with ⟨nm', hmem, hsub⟩
  rcases List.mem_map.mp hmem with ⟨nm, hnm, rfl⟩
  exact ⟨nm, hnm, hsub⟩

theorem containsCI_refl (v : String) : containsCI v v = true :=
  hasSub_of_parts (s := []) (t := []) (by simp)

theorem splitChAux_no_ch {ch : Char} (l : List Char) :
    ∀ acc : List Char, ch ∉ acc → ∀ e ∈ splitChAux ch l acc, ch ∉ e.data := by
  induction l with
  | nil =>
    intro acc hacc e he
    simp only [splitChAux, List.mem_singleton] at he
    subst he
    simpa using fun hmem => hacc (List.mem_reverse.mp hmem)
  | cons c t ih =>
    intro acc hacc e he
    by_cases hc : c == ch
    · simp only [splitChAux, hc, if_pos] at he
      rcases List.mem_cons.mp he with rfl | h2
      · simpa using fun hmem => hacc (List.mem_reverse.mp hmem)
      · exact ih [] (by simp) e h2
    · simp only [splitChAux, hc, if_neg, Bool.false_eq_true,
        not_false_iff] at he
      refine ih (c :: acc) ?_ e he
      intro hmem
      rcases List.mem_cons.mp hmem with rfl | h2
      · exact hc (beq_self_eq_true ch)
      · exact hacc h2

theorem splitCh_no_ch {ch : Char} (s : String) :
    ∀ e ∈ splitCh ch s, ch ∉ e.data :=
  splitChAux_no_ch s.data [] (by simp)

theorem splitChAux_all_no_ch {ch : Char} {l : List Char} (h : ch ∉ l) :
    ∀ acc : List Char, splitChAux ch l acc = [String.mk (acc.reverse ++ l)] := by
  induction l with
  | nil => intro acc; simp [splitChAux]
  | cons c t ih =>
    intro acc
    have hc : (c == ch) = false := by
      rcases List.mem_cons.not.mp h with h1
      simp only [beq_eq_false_iff_ne]
      intro rfl1
      exact h (rfl1 ▸ List.mem_cons_self c t)
    simp only [splitChAux, hc, Bool.false_eq_true, if_neg, not_false_iff]
    rw [ih (fun hm => h (List.mem_cons_of_mem c hm)) (c :: acc)]
    simp

theorem splitCh_single {ch : Char} {s : String} (h : ch ∉ s.data) :
    splitCh ch s = [s] := by
  unfold splitCh
  rw [splitChAux_all_no_ch h []]
  simp [string_mk_data]

theorem splitChAux_break {ch : Char} {l1 l2 : List Char} (h : ch ∉ l1) :
    ∀ acc : List Char, splitChAux ch (l1 ++ ch :: l2) acc =
      String.mk (acc.reverse ++ l1) :: splitChAux ch l2 [] := by
  induction l1 with
  | nil => intro acc; simp [splitChAux]
  | cons c t ih =>
    intro acc
    have hc : (c == ch) = false := by
      simp only [beq_eq_false_iff_ne]
      intro rfl1
      exact h (rfl1 ▸ List.mem_cons_self c t)
    simp only [List.cons_append, splitChAux, hc, Bool.false_eq_true, if_neg,
      not_false_iff, List.append_eq]
    rw [ih (fun hm => h (List.mem_cons_of_mem c hm)) (c :: acc)]
    simp

theorem mem_dedupFirst {x : String} {l : List String} :
    x ∈ dedupFirst l ↔ x ∈ l := by
  induction l with
  | nil => simp [dedupFirst]
  | cons y ys ih =>
    simp only [dedupFirst, List.mem_cons, List.mem_filter, ih, bne_iff_ne]
    by_cases hxy : x = y
    · simp [hxy]
    · simp [hxy]

theorem dedupFirst_ne_nil {l : List String} (h : l ≠ []) :
    dedupFirst l ≠ [] := by
  cases l with
  | nil => exact absurd rfl h
  | cons x xs => simp [dedupFirst]

/-! ## Lemmas about ordering, pagination and table primitives -/

theorem mem_insertByName {x r : Restaurant} {l : List Restaurant} :
    x ∈ insertByName r l ↔ x = r ∨ x ∈ l := by
  induction l with
  | nil => simp [insertByName]
  | cons y ys ih =>
    by_cases hle : r.name ≤ y.name
    · simp [insertByName, hle, List.mem_cons]
    · simp only [insertByName, hle, if_neg, not_false_iff, List.mem_cons, ih]
      tauto

theorem mem_sortByName {x : Restaurant} {l : List Restaurant} :
    x ∈ sortByName l ↔ x ∈ l := by
  induction l with
  | nil => simp [sortByName]
  | cons y ys ih =>
    simp only [sortByName, List.foldr_cons] at ih ⊢
    rw [mem_insertByName, ih, List.mem_cons]

theorem length_insertByName (r : Restaurant) (l : List Restaurant) :
    (insertByName r l).length = l.length + 1 := by
  induction l with
  | nil => rfl
  | cons y ys ih =>
    by_cases hle : r.name ≤ y.name
    · simp [insertByName, hle]
    · simp [insertByName, hle, ih]

theorem length_sortByName (l : List Restaurant) :
    (sortByName l).length = l.length := by
  induction l with
  | nil => rfl
  | cons y ys ih =>
    simp only [sortByName, List.foldr_cons] at ih ⊢
    rw [length_insertByName, ih, List.length_cons]

theorem take_all_of_le {α : Type} {l : List α} {n : Nat} (h : l.length ≤ n) :
    l.take n = l := by
  induction l generalizing n with
  | nil => simp
  | cons x xs ih =>
    cases n with
    | zero => simp at h
    | succ m => simpa using ih (Nat.le_of_succ_le_succ h)

theorem le_maxIdBy {α : Type} (getI : α → Nat) {x : α} {l : List α}
    (h : x ∈ l) : getI x ≤ maxIdBy getI l := by
  induction l with
  | nil => cases h
  | cons y ys ih =>
    rcases List.mem_cons.mp h with rfl | h2
    · exact Nat.le_max_left _ _
    · exact Nat.le_trans (ih h2) (Nat.le_max_right _ _)

theorem maxIdBy_succ_fresh {α : Type} (getI : α → Nat) {l : List α} :
    ∀ x ∈ l, getI x ≠ maxIdBy getI l + 1 := by
  intro x hx heq
  exact absurd (le_maxIdBy getI hx) (by omega)

theorem find?_beq_of_mem_nodup {α : Type} (getI : α → Nat) {l : List α}
    {x : α} (hn : (l.map getI).Nodup) (hm : x ∈ l) :
    l.find? (fun y => getI y == getI x) = some x := by
  induction l with
  | nil => cases hm
  | cons y ys ih =>
    rcases List.mem_cons.mp hm with rfl | h2
    · simp [List.find?]
    · have hy : (getI y == getI x) = false := by
        simp only [beq_eq_false_iff_ne]
        intro hcontra
        rw [List.map_cons, List.nodup_cons] at hn
        exact hn.1 (hcontra ▸ List.mem_map_of_mem getI h2)
      simp only [List.find?, hy]
      exact ih (by rw [List.map_cons, List.nodup_cons] at hn; exact hn.2) h2

theorem filter_name_singleton {α : Type} (getN : α → String) {l : List α}
    {x : α} (hn : (l.map getN).Nodup) (hm : x ∈ l) :
    l.filter (fun y => getN y == getN x) = [x] := by
  induction l with
  | nil => cases hm
  | cons y ys ih =>
    rw [List.map_cons, List.nodup_cons] at hn
    rcases List.mem_cons.mp hm with rfl | h2
    · have hrest : ys.filter (fun z => getN z == getN x) = [] := by
        rw [List.filter_eq_nil_iff]
        intro z hz
        simp only [beq_eq_false_iff_ne, ne_eq, Bool.not_eq_true, beq_iff_eq]
        intro hcontra
        exact hn.1 (hcontra ▸ List.mem_map_of_mem getN hz)
      simp [List.filter_cons, hrest]
    · have hy : (getN y == getN x) = false := by
        simp only [beq_eq_false_iff_ne]
        intro hcontra
        exact hn.1 (hcontra.symm ▸ List.mem_map_of_mem getN h2)
      simp only [List.filter_cons, hy]
      simp only [Bool.false_eq_true, if_neg, not_false_iff]
      exact ih hn.2 h2

theorem filter_none {α : Type} (getN : α → String) {l : List α} {nm : String}
    (h : ∀ y ∈ l, getN y ≠ nm) :
    l.filter (fun y => getN y == nm) = [] := by
  rw [List.filter_eq_nil_iff]
  intro y hy
  simpa using h y hy

/-! ## Lemmas about the relationship writer primitives -/

theorem insertPairs_single {j : List (Nat × Nat)} {rid i : Nat}
    (h : (rid, i) ∉ j) : insertPairs j rid [i] = some (j ++ [(rid, i)]) := by
  simp [insertPairs, h]

theorem insertPairs_nodup {rid : Nat} {ids : List Nat} :
    ∀ {j j' : List (Nat × Nat)}, j.Nodup →
      insertPairs j rid ids = some j' → j'.Nodup := by
  induction ids with
  | nil =>
    intro j j' hj h
    simp only [insertPairs, Option.some.injEq] at h
    exact h ▸ hj
  | cons i rest ih =>
    intro j j' hj h
    simp only [insertPairs] at h
    by_cases hmem : (rid, i) ∈ j
    · simp [hmem] at h
    · rw [if_neg hmem] at h
      refine ih ?_ h
      rw [← List.concat_eq_append]
      exact List.Nodup.concat hmem hj

theorem addNames_nil {α : Type} (getN : α → String) (getI : α → Nat)
    (mkRow : Nat → String → α) (tbl : List α) (j : List (Nat × Nat))
    (rid : Nat) : addNames getN getI mkRow tbl j rid [] = some (tbl, j) := rfl

theorem addNames_nodup {α : Type} {getN : α → String} {getI : α → Nat}
    {mkRow : Nat → String → α} {rid : Nat} {names : List String} :
    ∀ {tbl : List α} {j : List (Nat × Nat)} {tbl' : List α}
      {j' : List (Nat × Nat)}, j.Nodup →
      addNames getN getI mkRow tbl j rid names = some (tbl', j') → j'.Nodup := by
  induction names with
  | nil =>
    intro tbl j tbl' j' hj h
    simp only [addNames, Option.some.injEq, Prod.mk.injEq] at h
    exact h.2 ▸ hj
  | cons nm rest ih =>
    intro tbl j tbl' j' hj h
    simp only [addNames] at h
    cases hins : insertPairs j rid (idsForName getN getI
        (insertOrIgnoreTbl getN getI mkRow tbl (trimStr nm)) (trimStr nm)) with
    | none => rw [hins] at h; cases h
    | some j2 =>
      rw [hins] at h
      exact ih (insertPairs_nodup hj hins) h

theorem insertOrIgnore_names_nodup {α : Type} (getN : α → String)
    (getI : α → Nat) (mkRow : Nat → String → α)
    (hmkN : ∀ i n, getN (mkRow i n) = n) {tbl : List α} {nm : String}
    (hN : (tbl.map getN).Nodup) :
    ((insertOrIgnoreTbl getN getI mkRow tbl nm).map getN).Nodup := by
  unfold insertOrIgnoreTbl
  by_cases hany : tbl.any (fun l => getN l == nm)
  · simpa [hany] using hN
  · rw [if_neg hany, List.map_append, List.map_singleton, hmkN,
      ← List.concat_eq_append]
    refine List.Nodup.concat ?_ hN
    intro hmem
    rcases List.mem_map.mp hmem with ⟨x, hx, hgx⟩
    exact hany (List.any_eq_true.mpr ⟨x, hx, by simp [hgx]⟩)

theorem insertOrIgnore_ids_nodup {α : Type} (getN : α → String)
    (getI : α → Nat) (mkRow : Nat → String → α)
    (hmkI : ∀ i n, getI (mkRow i n) = i) {tbl : List α} {nm : String}
    (hI : (tbl.map getI).Nodup) :
    ((insertOrIgnoreTbl getN getI mkRow tbl nm).map getI).Nodup := by
  unfold insertOrIgnoreTbl
  by_cases hany : tbl.any (fun l => getN l == nm)
  · simpa [hany] using hI
  · rw [if_neg hany, List.map_append, List.map_singleton, hmkI,
      ← List.concat_eq_append]
    refine List.Nodup.concat ?_ hI
    intro hmem
    rcases List.mem_map.mp hmem with ⟨x, hx, hgx⟩
    exact maxIdBy_succ_fresh getI x hx hgx

theorem insertOrIgnore_exists {α : Type} (getN : α → String) (getI : α → Nat)
    (mkRow : Nat → String → α) (hmkN : ∀ i n, getN (mkRow i n) = n)
    (tbl : List α) (nm : String) :
    ∃ row ∈ insertOrIgnoreTbl getN getI mkRow tbl nm, getN row = nm := by
  unfold insertOrIgnoreTbl
  by_cases hany : tbl.any (fun l => getN l == nm)
  · rcases List.any_eq_true.mp hany with ⟨x, hx, hgx⟩
    exact ⟨x, by simp [hany, hx], by simpa using hgx⟩
  · exact ⟨mkRow (maxIdBy getI tbl + 1) nm,
      by simp [hany], hmkN _ _⟩

theorem idsForName_singleton {α : Type} (getN : α → String) (getI : α → Nat)
    {tbl : List α} {row : α} (hN : (tbl.map getN).Nodup) (hm : row ∈ tbl) :
    idsForName getN getI tbl (getN row) = [getI row] := by
  unfold idsForName
  rw [filter_name_singleton getN hN hm, List.map_singleton]

theorem namesByIds_single {α : Type} (getN : α → String) (getI : α → Nat)
    {tbl : List α} {row : α} (hI : (tbl.map getI).Nodup) (hm : row ∈ tbl) :
    namesByIds getN getI tbl [getI row] = [getN row] := by
  unfold namesByIds
  rw [List.filterMap_cons]
  rw [find?_beq_of_mem_nodup getI hI hm]
  rfl

theorem addNames_single {α : Type} (getN : α → String) (getI : α → Nat)
    (mkRow : Nat → String → α)
    (hmkN : ∀ i n, getN (mkRow i n) = n)
    {tbl : List α} {j : List (Nat × Nat)} {rid : Nat} {nm : String}
    (hN : (tbl.map getN).Nodup)
    (hfresh : ∀ p ∈ j, p.1 ≠ rid) :
    ∃ row, row ∈ insertOrIgnoreTbl getN getI mkRow tbl (trimStr nm) ∧
      getN row = trimStr nm ∧
      addNames getN getI mkRow tbl j rid [nm] =
        some (insertOrIgnoreTbl getN getI mkRow tbl (trimStr nm),
          j ++ [(rid, getI row)]) := by
  rcases insertOrIgnore_exists getN getI mkRow hmkN tbl (trimStr nm) with
    ⟨row, hrow, hname⟩
  refine ⟨row, hrow, hname, ?_⟩
  have hids : idsForName getN getI
      (insertOrIgnoreTbl getN getI mkRow tbl (trimStr nm)) (trimStr nm) =
      [getI row] := by
    have h0 := idsForName_singleton getN getI
      (insertOrIgnore_names_nodup getN getI mkRow hmkN hN) hrow
    rwa [hname] at h0
  have hnot : (rid, getI row) ∉ j := fun hmem => hfresh _ hmem rfl
  simp only [addNames, hids, insertPairs_single hnot]

theorem joinIdsFor_nil_of_fresh {j : List (Nat × Nat)} {rid : Nat}
    (h : ∀ p ∈ j, p.1 ≠ rid) : joinIdsFor j rid = [] := by
  unfold joinIdsFor
  rw [List.filter_eq_nil_iff.mpr (fun p hp => by simpa using h p hp)]
  rfl

theorem joinIdsFor_append_single {j : List (Nat × Nat)} {rid i : Nat} :
    joinIdsFor (j ++ [(rid, i)]) rid = joinIdsFor j rid ++ [i] := by
  unfold joinIdsFor
  rw [List.filter_append, List.map_append]
  simp

theorem find?_append_fresh {old : List Restaurant} {row : Restaurant}
    {rid : Nat} (hold : ∀ r ∈ old, r.id ≠ rid) (hrow : row.id = rid) :
    (old ++ [row]).find? (fun r => r.id == rid) = some row := by
  induction old with
  | nil => simp [List.find?, hrow]
  | cons x xs ih =>
    have hx : (x.id == rid) = false := by
      simpa using hold x (List.mem_cons_self x xs)
    simp only [List.cons_append, List.find?, hx]
    exact ih (fun r hr => hold r (List.mem_cons_of_mem x hr))

/-! ## Lemmas about the list endpoint -/

theorem shape_inj {st : DB} {r r' : Restaurant}
    (h : shape st r = shape st r') : r = r' := by
  cases r; cases r'
  simp only [shape, Shaped.mk.injEq] at h
  obtain ⟨h1, h2, h3, h4, h5, h6, h7, h8, h9, h10, h11, h12, h13, h14, h15,
    h16, _, _, _, _⟩ := h
  simp only [Restaurant.mk.injEq]
  exact ⟨h1, h2, h3, h4, h5, h6, h7, h8, h9, h10, h11, h12, h13, h14, h15, h16⟩

theorem mem_restaurantRows {st : DB} {q : ListQuery} {r : Restaurant}
    (hlen : st.restaurants.length ≤ q.limit) (hoff : q.offset = 0) :
    shape st r ∈ restaurantRows st q ↔
      r ∈ st.restaurants ∧ preFilter q r = true ∧
        postGroupPass st q r = true := by
  unfold restaurantRows
  rw [hoff, List.drop_zero]
  have hlen2 : (sortByName ((st.restaurants.filter (preFilter q)).filter
      (postGroupPass st q))).length ≤ q.limit := by
    rw [length_sortByName]
    exact le_trans (le_trans (List.length_filter_le _ _)
      (List.length_filter_le _ _)) hlen
  rw [take_all_of_le hlen2]
  constructor
  · intro hmem
    rcases List.mem_map.mp hmem with ⟨r', hr', hsh⟩
    have hr'r : r' = r := shape_inj hsh
    subst hr'r
    rw [mem_sortByName] at hr'
    rcases List.mem_filter.mp hr' with ⟨hr2, hpost⟩
    rcases List.mem_filter.mp hr2 with ⟨hr3, hpre⟩
    exact ⟨hr3, hpre, hpost⟩
  · rintro ⟨h1, h2, h3⟩
    exact List.mem_map_of_mem _ (mem_sortByName.mpr (List.mem_filter.mpr
      ⟨List.mem_filter.mpr ⟨h1, h2⟩, h3⟩))

theorem anyLike_aggOpt_iff {vals names : List String}
    (hv : ∀ v ∈ vals, ',' ∉ (lowerStr v).data) :
    anyLike vals (aggOpt names) = true ↔
      ∃ nm ∈ dedupFirst names, ∃ v ∈ vals, containsCI nm v = true := by
  unfold aggOpt
  cases hd : dedupFirst names with
  | nil => simp [anyLike, aggLike, hd]
  | cons x xs =>
    simp only [anyLike, List.any_eq_true, aggLike]
    constructor
    · rintro ⟨v, hvmem, hlike⟩
      rcases containsCI_joinComma_elim (hv v hvmem) (by simp) hlike with
        ⟨nm, hnm, hc⟩
      exact ⟨nm, hnm, v, hvmem, hc⟩
    · rintro ⟨nm, hnm, v, hvmem, hc⟩
      exact ⟨v, hvmem, containsCI_joinComma_of_mem hnm hc⟩

theorem aggLike_of_mem_names {names : List String} {s nm : String}
    (hnm : nm ∈ names) (h : containsCI nm s = true) :
    aggLike (aggOpt names) s = true := by
  unfold aggOpt
  cases hd : dedupFirst names with
  | nil =>
    exact absurd (mem_dedupFirst.mpr hnm) (by rw [hd]; simp)
  | cons x xs =>
    have hmem : nm ∈ dedupFirst names := mem_dedupFirst.mpr hnm
    rw [hd] at hmem
    exact containsCI_joinComma_of_mem hmem h

theorem preFilter_none {q : ListQuery} (hb : q.boroughs = none)
    (hs : q.status = none) (hl : q.liked = none) (r : Restaurant) :
    preFilter q r = true := by
  simp [preFilter, hb, hs, hl]

/-! ## Claim C7: blank-name creation is rejected -/

/-- C7: a POST /api/restaurants whose name is missing, empty, or
whitespace-only fails with status 400 and persists no row of any kind. -/
theorem claim7_blank_name_rejected (st : DB) (b : CreateReq)
    (h : b.name = none ∨ ∃ s, b.name = some s ∧ trimStr s = "") :
    (postRestaurant st b).1.code = 400 ∧ (postRestaurant st b).2 = st := by
  rcases h with h | ⟨s, hs, ht⟩
  · simp [postRestaurant, h, PostResult.code]
  · simp [postRestaurant, hs, ht, PostResult.code]

/-- Witness for C7 at a concrete whitespace-only name. -/
theorem claim7_witness :
    (postRestaurant stBase { name := some "   " }).1.code = 400 ∧
      (postRestaurant stBase { name := some "   " }).2 = stBase :=
  claim7_blank_name_rejected stBase _ (Or.inr ⟨"   ", rfl, by decide⟩)

/-! ## Claim C8: deleting a missing id rolls back -/

/-- C8: a DELETE /api/restaurants/:id for an id not in the restaurants
table responds 404 and leaves every lookup and association table unchanged
(the join-table deletes issued first are rolled back). -/
theorem claim8_delete_missing_rolls_back (st : DB) (rid : Nat)
    (h : ∀ r ∈ st.restaurants, r.id ≠ rid) :
    (deleteRestaurant st rid).1.code = 404 ∧
      (deleteRestaurant st rid).2 = st := by
  have hnil : st.restaurants.filter (fun r => r.id == rid) = [] :=
    List.filter_eq_nil_iff.mpr (fun r hr => by simpa using h r hr)
  simp [deleteRestaurant, hnil, DeleteResult.code]

/-- Witness for C8 at a concrete missing id. -/
theorem claim8_witness :
    (deleteRestaurant stBase 999).1.code = 404 ∧
      (deleteRestaurant stBase 999).2 = stBase :=
  claim8_delete_missing_rolls_back stBase 999 (by decide)

/-! ## Claim C4: update of a missing id -/

/-- C4 counterexample: a PUT with something to change (a cuisines list)
aimed at the missing id 999 succeeds with 200 and persists a lookup link
under id 999 instead of rolling back with 404, because the existence check
runs only when a scalar field is supplied. -/
theorem claim4_counterexample :
    (putRestaurant stBase 999 { cuisines := ["Italian"] }).1.code = 200 ∧
      (putRestaurant stBase 999
        { cuisines := ["Italian"] }).2.restaurant_cuisines =
        [(1, 1), (999, 1)] ∧
      (putRestaurant stBase 999 { cuisines := ["Italian"] }).2 ≠ stBase := by
  decide

/-- C4 amended: a PUT that supplies at least one scalar field and targets
an id not in the restaurants table rolls back, responds 404, and changes
nothing. -/
theorem claim4_amended (st : DB) (rid : Nat) (b : UpdateReq)
    (hscalar : 0 < scalarCount b)
    (hmissing : ∀ r ∈ st.restaurants, r.id ≠ rid) :
    (putRestaurant st rid b).1.code = 404 ∧
      (putRestaurant st rid b).2 = st := by
  have h400 : (scalarCount b == 0) = false := by
    simpa using Nat.pos_iff_ne_zero.mp hscalar
  have hany : st.restaurants.any (fun r => r.id == rid) = false := by
    rw [List.any_eq_false]
    intro r hr
    simpa using hmissing r hr
  simp [putRestaurant, h400, hany, hscalar, PutResult.code]

/-- Witness for the amended C4 at a concrete scalar-bearing body. -/
theorem claim4_witness :
    (putRestaurant stBase 999 { notes := some "closed" }).1.code = 404 ∧
      (putRestaurant stBase 999 { notes := some "closed" }).2 = stBase :=
  claim4_amended stBase 999 _ (by decide) (by decide)

/-! ## Claim C1: the tags-to-empty update -/

/-- C1: at a state where restaurant 1 has tag brunch and cuisine Italian,
the PUT body consisting solely of an empty tags list is rejected with 400
and removes nothing (an explicitly empty list is indistinguishable from an
omitted one); and when another field (notes) makes the update proceed, the
cuisine association of the omitted cuisines category is cleared along with
the tags, because every category guard tests a length that is always
at least zero. -/
theorem claim1_code_bug :
    ((putRestaurant stBase 1 { tags := [] }).1.code = 400 ∧
      (putRestaurant stBase 1 { tags := [] }).2 = stBase) ∧
    ((putRestaurant stBase 1
        { notes := some "closed", tags := [] }).1.code = 200 ∧
      (putRestaurant stBase 1
        { notes := some "closed", tags := [] }).2.restaurant_tags = [] ∧
      (putRestaurant stBase 1
        { notes := some "closed", tags := [] }).2.restaurant_cuisines = []) := by
  decide

/-! ## Further helper lemmas for the creation path -/

theorem join_fst_ne_fresh {st : DB} {j : List (Nat × Nat)}
    (hj : ∀ p ∈ j, p.1 ∈ st.restaurants.map Restaurant.id) :
    ∀ p ∈ j, p.1 ≠ maxIdBy Restaurant.id st.restaurants + 1 := by
  intro p hp heq
  rcases List.mem_map.mp (hj p hp) with ⟨r, hr, hid⟩
  exact maxIdBy_succ_fresh Restaurant.id r hr (by rw [hid, heq])

theorem insertOrIgnore_present {α : Type} (getN : α → String)
    (getI : α → Nat) (mkRow : Nat → String → α) {tbl : List α} {row : α}
    {nm : String} (h : row ∈ tbl) (hn : getN row = nm) :
    insertOrIgnoreTbl getN getI mkRow tbl nm = tbl := by
  unfold insertOrIgnoreTbl
  rw [if_pos (List.any_eq_true.mpr ⟨row, h, by simp [hn]⟩)]

theorem addNames_dup_fails {α : Type} (getN : α → String) (getI : α → Nat)
    (mkRow : Nat → String → α) (hmkN : ∀ i n, getN (mkRow i n) = n)
    {tbl : List α} {j : List (Nat × Nat)} {rid : Nat} {nm : String}
    (hN : (tbl.map getN).Nodup) (hfresh : ∀ p ∈ j, p.1 ≠ rid) :
    addNames getN getI mkRow tbl j rid [nm, nm] = none := by
  rcases insertOrIgnore_exists getN getI mkRow hmkN tbl (trimStr nm) with
    ⟨row, hrow, hname⟩
  have htN : ((insertOrIgnoreTbl getN getI mkRow tbl (trimStr nm)).map
      getN).Nodup := insertOrIgnore_names_nodup getN getI mkRow hmkN hN
  have hids : idsForName getN getI
      (insertOrIgnoreTbl getN getI mkRow tbl (trimStr nm)) (trimStr nm) =
      [getI row] := by
    have h0 := idsForName_singleton getN getI htN hrow
    rwa [hname] at h0
  have hnot : (rid, getI row) ∉ j := fun hm => hfresh _ hm rfl
  have ht2 : insertOrIgnoreTbl getN getI mkRow
      (insertOrIgnoreTbl getN getI mkRow tbl (trimStr nm)) (trimStr nm) =
      insertOrIgnoreTbl getN getI mkRow tbl (trimStr nm) :=
    insertOrIgnore_present getN getI mkRow hrow hname
  simp only [addNames, hids, insertPairs_single hnot, ht2]
  simp [insertPairs]

theorem postRestaurant_single_cuisine (st : DB) (rname nm : String)
    (hCnm : (st.cuisines.map Lookup.name).Nodup)
    (hJC : ∀ p ∈ st.restaurant_cuisines,
      p.1 ∈ st.restaurants.map Restaurant.id)
    (hrname : trimStr rname ≠ "") :
    ∃ row ∈ insertOrIgnoreTbl Lookup.name Lookup.id mkLookup
        st.cuisines (trimStr nm),
      row.name = trimStr nm ∧
      postRestaurant st { name := some rname, cuisines := [nm] } =
        (PostResult.created (maxIdBy Restaurant.id st.restaurants + 1),
         { st with
            restaurants := st.restaurants ++
              [{ id := maxIdBy Restaurant.id st.restaurants + 1,
                 name := trimStr rname, status := some "Unvisited" }]
            cuisines := insertOrIgnoreTbl Lookup.name Lookup.id mkLookup
              st.cuisines (trimStr nm)
            restaurant_cuisines := st.restaurant_cuisines ++
              [(maxIdBy Restaurant.id st.restaurants + 1, row.id)] }) := by
  have hfreshC : ∀ p ∈ st.restaurant_cuisines,
      p.1 ≠ maxIdBy Restaurant.id st.restaurants + 1 := join_fst_ne_fresh hJC
  obtain ⟨row, hrow, hname, heq⟩ := @addNames_single Lookup Lookup.name
    Lookup.id mkLookup (fun _ _ => rfl) st.cuisines st.restaurant_cuisines
    (maxIdBy Restaurant.id st.restaurants + 1) nm hCnm hfreshC
  refine ⟨row, hrow, hname, ?_⟩
  have hbeq : (trimStr rname == "") = false := beq_eq_false_iff_ne.mpr hrname
  simp only [postRestaurant, hbeq, Bool.false_eq_true, if_neg,
    not_false_iff, handleRestaurantRelationships, heq, addNames_nil,
    Option.bind_eq_bind, Option.some_bind, Option.getD_none]

/-! ## Claim C5: blank association names -/

theorem mem_insertOrIgnore_of_mem {α : Type} (getN : α → String)
    (getI : α → Nat) (mkRow : Nat → String → α) {tbl : List α} {nm : String}
    {x : α} (h : x ∈ tbl) : x ∈ insertOrIgnoreTbl getN getI mkRow tbl nm := by
  unfold insertOrIgnoreTbl
  by_cases hany : tbl.any (fun l => getN l == nm)
  · rwa [if_pos hany]
  · rw [if_neg hany]
    exact List.mem_append_left _ h

theorem getI_inj_of_nodup {α : Type} (getI : α → Nat) {l : List α}
    (hn : (l.map getI).Nodup) {x y : α} (hx : x ∈ l) (hy : y ∈ l)
    (h : getI x = getI y) : x = y := by
  have h1 := find?_beq_of_mem_nodup getI hn hx
  have h2 := find?_beq_of_mem_nodup getI hn hy
  rw [h] at h1
  exact Option.some.inj (h1.symm.trans h2)

theorem addNames_two {α : Type} (getN : α → String) (getI : α → Nat)
    (mkRow : Nat → String → α) (hmkN : ∀ i n, getN (mkRow i n) = n)
    (hmkI : ∀ i n, getI (mkRow i n) = i)
    {tbl : List α} {j : List (Nat × Nat)} {rid : Nat} {nmB nmO : String}
    (hN : (tbl.map getN).Nodup) (hI : (tbl.map getI).Nodup)
    (hfresh : ∀ p ∈ j, p.1 ≠ rid) (hne : trimStr nmB ≠ trimStr nmO) :
    ∃ (t2 : List α) (rowB rowO : α),
      addNames getN getI mkRow tbl j rid [nmB, nmO] =
        some (t2, (j ++ [(rid, getI rowB)]) ++ [(rid, getI rowO)]) ∧
      rowB ∈ t2 ∧ getN rowB = trimStr nmB ∧
      rowO ∈ t2 ∧ getN rowO = trimStr nmO := by
  obtain ⟨rowB, hrowB, hnameB⟩ :=
    insertOrIgnore_exists getN getI mkRow hmkN tbl (trimStr nmB)
  have hN1 : ((insertOrIgnoreTbl getN getI mkRow tbl (trimStr nmB)).map
      getN).Nodup := insertOrIgnore_names_nodup getN getI mkRow hmkN hN
  have hI1 : ((insertOrIgnoreTbl getN getI mkRow tbl (trimStr nmB)).map
      getI).Nodup := insertOrIgnore_ids_nodup getN getI mkRow hmkI hI
  have hidsB : idsForName getN getI
      (insertOrIgnoreTbl getN getI mkRow tbl (trimStr nmB)) (trimStr nmB) =
      [getI rowB] := by
    have h0 := idsForName_singleton getN getI hN1 hrowB
    rwa [hnameB] at h0
  have hpairB : (rid, getI rowB) ∉ j := fun hm => hfresh _ hm rfl
  obtain ⟨rowO, hrowO, hnameO⟩ := insertOrIgnore_exists getN getI mkRow hmkN
    (insertOrIgnoreTbl getN getI mkRow tbl (trimStr nmB)) (trimStr nmO)
  have hN2 : ((insertOrIgnoreTbl getN getI mkRow
      (insertOrIgnoreTbl getN getI mkRow tbl (trimStr nmB))
      (trimStr nmO)).map getN).Nodup :=
    insertOrIgnore_names_nodup getN getI mkRow hmkN hN1
  have hI2 : ((insertOrIgnoreTbl getN getI mkRow
      (insertOrIgnoreTbl getN getI mkRow tbl (trimStr nmB))
      (trimStr nmO)).map getI).Nodup :=
    insertOrIgnore_ids_nodup getN getI mkRow hmkI hI1
  have hidsO : idsForName getN getI
      (insertOrIgnoreTbl getN getI mkRow
        (insertOrIgnoreTbl getN getI mkRow tbl (trimStr nmB))
        (trimStr nmO)) (trimStr nmO) = [getI rowO] := by
    have h0 := idsForName_singleton getN getI hN2 hrowO
    rwa [hnameO] at h0
  have hrowB2 : rowB ∈ insertOrIgnoreTbl getN getI mkRow
      (insertOrIgnoreTbl getN getI mkRow tbl (trimStr nmB)) (trimStr nmO) :=
    mem_insertOrIgnore_of_mem getN getI mkRow hrowB
  have hBO : getI rowB ≠ getI rowO := by
    intro hcontra
    exact hne (by rw [← hnameB, getI_inj_of_nodup getI hI2 hrowB2 hrowO
      hcontra, hnameO])
  have hpairO : (rid, getI rowO) ∉ j ++ [(rid, getI rowB)] := by
    intro hm
    rcases List.mem_append.mp hm with h1 | h2
    · exact hfresh _ h1 rfl
    · have h3 := List.mem_singleton.mp h2
      exact hBO (congrArg Prod.snd h3).symm
  refine ⟨insertOrIgnoreTbl getN getI mkRow
      (insertOrIgnoreTbl getN getI mkRow tbl (trimStr nmB)) (trimStr nmO),
    rowB, rowO, ?_, hrowB2, hnameB, hrowO, hnameO⟩
  simp only [addNames, hidsB, insertPairs_single hpairB, hidsO,
    insertPairs_single hpairO]

/-- C5 counterexample: a blank entry in the supplied cuisines list is not
skipped on either write path - creating with the list blank, Diner
persists a lookup row named the empty string and an association row for it
(besides the Diner ones), and updating a restaurant with the list
containing only a blank likewise persists the empty-named lookup row and
its association row. -/
theorem claim5_counterexample :
    ((postRestaurant stEmpty
        { name := some "Alpha", cuisines := [" ", "Diner"] }).1 =
      PostResult.created 1 ∧
     (postRestaurant stEmpty
        { name := some "Alpha", cuisines := [" ", "Diner"] }).2.cuisines =
      [{ id := 1, name := "" }, { id := 2, name := "Diner" }] ∧
     (postRestaurant stEmpty
        { name := some "Alpha",
          cuisines := [" ", "Diner"] }).2.restaurant_cuisines =
      [(1, 1), (1, 2)]) ∧
    ((putRestaurant stBase 1 { cuisines := [" "] }).1 = PutResult.updated ∧
     (putRestaurant stBase 1 { cuisines := [" "] }).2.cuisines =
      [{ id := 1, name := "Italian" }, { id := 2, name := "" }] ∧
     (putRestaurant stBase 1 { cuisines := [" "] }).2.restaurant_cuisines =
      [(1, 2)]) := by
  decide

/-- C5 amended: on both create and update, a name blank after trimming is
not skipped - it produces (or reuses) a lookup row whose name is the empty
string plus an association row linking the restaurant to it, while a
remaining non-blank name in the same list is still processed normally
(it gets its own lookup row and association row). -/
theorem claim5_amended :
    (∀ st : DB, WF st → ∀ rname nmB nmO : String, trimStr rname ≠ "" →
      trimStr nmB = "" → trimStr nmO ≠ "" →
      ∃ rowB rowO : Lookup,
        (postRestaurant st
          { name := some rname, cuisines := [nmB, nmO] }).1 =
          PostResult.created (maxIdBy Restaurant.id st.restaurants + 1) ∧
        rowB ∈ (postRestaurant st
          { name := some rname, cuisines := [nmB, nmO] }).2.cuisines ∧
        rowB.name = "" ∧
        (maxIdBy Restaurant.id st.restaurants + 1, rowB.id) ∈
          (postRestaurant st
            { name := some rname,
              cuisines := [nmB, nmO] }).2.restaurant_cuisines ∧
        rowO ∈ (postRestaurant st
          { name := some rname, cuisines := [nmB, nmO] }).2.cuisines ∧
        rowO.name = trimStr nmO ∧
        (maxIdBy Restaurant.id st.restaurants + 1, rowO.id) ∈
          (postRestaurant st
            { name := some rname,
              cuisines := [nmB, nmO] }).2.restaurant_cuisines) ∧
    (∀ st : DB, WF st → ∀ (rid : Nat) (nmB nmO : String),
      trimStr nmB = "" → trimStr nmO ≠ "" →
      ∃ rowB rowO : Lookup,
        (putRestaurant st rid { cuisines := [nmB, nmO] }).1 =
          PutResult.updated ∧
        rowB ∈ (putRestaurant st rid
          { cuisines := [nmB, nmO] }).2.cuisines ∧
        rowB.name = "" ∧
        (rid, rowB.id) ∈ (putRestaurant st rid
          { cuisines := [nmB, nmO] }).2.restaurant_cuisines ∧
        rowO ∈ (putRestaurant st rid
          { cuisines := [nmB, nmO] }).2.cuisines ∧
        rowO.name = trimStr nmO ∧
        (rid, rowO.id) ∈ (putRestaurant st rid
          { cuisines := [nmB, nmO] }).2.restaurant_cuisines) := by
  constructor
  · intro st hwf rname nmB nmO hrname hblank hother
    obtain ⟨-, hCid, hCnm, -, -, -, -, -, -, hJC, -, -, -, -⟩ := hwf
    have hne : trimStr nmB ≠ trimStr nmO := by
      rw [hblank]
      exact fun h => hother h.symm
    obtain ⟨t2, rowB, rowO, heqC, hrowB, hnameB, hrowO, hnameO⟩ :=
      @addNames_two Lookup Lookup.name Lookup.id mkLookup (fun _ _ => rfl)
        (fun _ _ => rfl) st.cuisines st.restaurant_cuisines
        (maxIdBy Restaurant.id st.restaurants + 1) nmB nmO hCnm hCid
        (join_fst_ne_fresh hJC) hne
    have hbeq : (trimStr rname == "") = false := beq_eq_false_iff_ne.mpr hrname
    have hpost : postRestaurant st
        { name := some rname, cuisines := [nmB, nmO] } =
        (PostResult.created (maxIdBy Restaurant.id st.restaurants + 1),
         { st with
            restaurants := st.restaurants ++
              [{ id := maxIdBy Restaurant.id st.restaurants + 1,
                 name := trimStr rname, status := some "Unvisited" }]
            cuisines := t2
            restaurant_cuisines := (st.restaurant_cuisines ++
              [(maxIdBy Restaurant.id st.restaurants + 1, rowB.id)]) ++
              [(maxIdBy Restaurant.id st.restaurants + 1, rowO.id)] }) := by
      simp only [postRestaurant, hbeq, Bool.false_eq_true, if_neg,
        not_false_iff, handleRestaurantRelationships, heqC, addNames_nil,
        Option.bind_eq_bind, Option.some_bind, Option.getD_none]
    refine ⟨rowB, rowO, by rw [hpost], ?_, hblank ▸ hnameB, ?_, ?_,
      hnameO, ?_⟩
    · rw [hpost]
      exact hrowB
    · rw [hpost]
      exact List.mem_append_left _
        (List.mem_append_right _ (List.mem_singleton.mpr rfl))
    · rw [hpost]
      exact hrowO
    · rw [hpost]
      exact List.mem_append_right _ (List.mem_singleton.mpr rfl)
  · intro st hwf rid nmB nmO hblank hother
    obtain ⟨-, hCid, hCnm, -, -, -, -, -, -, -, -, -, -, -⟩ := hwf
    have hne : trimStr nmB ≠ trimStr nmO := by
      rw [hblank]
      exact fun h => hother h.symm
    have hfreshF : ∀ p ∈ st.restaurant_cuisines.filter
        (fun p => p.1 != rid), p.1 ≠ rid := by
      intro p hp
      simpa using (List.mem_filter.mp hp).2
    obtain ⟨t2, rowB, rowO, heqC, hrowB, hnameB, hrowO, hnameO⟩ :=
      @addNames_two Lookup Lookup.name Lookup.id mkLookup (fun _ _ => rfl)
        (fun _ _ => rfl) st.cuisines
        (st.restaurant_cuisines.filter (fun p => p.1 != rid)) rid nmB nmO
        hCnm hCid hfreshF hne
    have hput : putRestaurant st rid { cuisines := [nmB, nmO] } =
        (PutResult.updated,
         { st with
            cuisines := t2
            restaurant_cuisines := ((st.restaurant_cuisines.filter
              (fun p => p.1 != rid)) ++ [(rid, rowB.id)]) ++
              [(rid, rowO.id)]
            restaurant_types := st.restaurant_types.filter
              (fun p => p.1 != rid)
            restaurant_neighborhoods := st.restaurant_neighborhoods.filter
              (fun p => p.1 != rid)
            restaurant_tags := st.restaurant_tags.filter
              (fun p => p.1 != rid) }) := by
      have hc2 : (scalarCount ({ cuisines := [nmB, nmO] } : UpdateReq) > 0) =
          False := eq_false (fun h => Nat.lt_irrefl 0 h)
      simp only [putRestaurant, List.isEmpty_cons, Bool.and_false,
        Bool.false_and, Bool.false_eq_true, if_neg, not_false_iff, hc2,
        if_false, updateCuisinesTypesNeighborhoodsAndTags, rewriteNames,
        heqC, addNames_nil, Option.bind_eq_bind, Option.some_bind]
    refine ⟨rowB, rowO, by rw [hput], ?_, hblank ▸ hnameB, ?_, ?_,
      hnameO, ?_⟩
    · rw [hput]
      exact hrowB
    · rw [hput]
      exact List.mem_append_left _
        (List.mem_append_right _ (List.mem_singleton.mpr rfl))
    · rw [hput]
      exact hrowO
    · rw [hput]
      exact List.mem_append_right _ (List.mem_singleton.mpr rfl)

/-- Witness for the amended C5: both the create and the update half at
concrete states and the list blank, Diner. -/
theorem claim5_witness :
    (∃ rowB rowO : Lookup,
      (postRestaurant stEmpty
        { name := some "Alpha", cuisines := [" ", "Diner"] }).1 =
        PostResult.created 1 ∧
      rowB ∈ (postRestaurant stEmpty
        { name := some "Alpha", cuisines := [" ", "Diner"] }).2.cuisines ∧
      rowB.name = "" ∧
      (1, rowB.id) ∈ (postRestaurant stEmpty
        { name := some "Alpha",
          cuisines := [" ", "Diner"] }).2.restaurant_cuisines ∧
      rowO ∈ (postRestaurant stEmpty
        { name := some "Alpha", cuisines := [" ", "Diner"] }).2.cuisines ∧
      rowO.name = "Diner" ∧
      (1, rowO.id) ∈ (postRestaurant stEmpty
        { name := some "Alpha",
          cuisines := [" ", "Diner"] }).2.restaurant_cuisines) ∧
    (∃ rowB rowO : Lookup,
      (putRestaurant stBase 1 { cuisines := [" ", "Diner"] }).1 =
        PutResult.updated ∧
      rowB ∈ (putRestaurant stBase 1
        { cuisines := [" ", "Diner"] }).2.cuisines ∧
      rowB.name = "" ∧
      (1, rowB.id) ∈ (putRestaurant stBase 1
        { cuisines := [" ", "Diner"] }).2.restaurant_cuisines ∧
      rowO ∈ (putRestaurant stBase 1
        { cuisines := [" ", "Diner"] }).2.cuisines ∧
      rowO.name = "Diner" ∧
      (1, rowO.id) ∈ (putRestaurant stBase 1
        { cuisines := [" ", "Diner"] }).2.restaurant_cuisines) :=
  ⟨claim5_amended.1 stEmpty (by decide) "Alpha" " " "Diner" (by decide)
      (by decide) (by decide),
   claim5_amended.2 stBase (by decide) 1 " " "Diner" (by decide)
      (by decide)⟩

/-! ## Claim C6: duplicate names and pair uniqueness -/

theorem handleRel_pairsOk {st st' : DB} {rid : Nat} {b : CreateReq}
    (hp : pairsOk st)
    (h : handleRestaurantRelationships st rid b = some st') : pairsOk st' := by
  unfold handleRestaurantRelationships at h
  cases h1 : addNames Lookup.name Lookup.id mkLookup st.cuisines
      st.restaurant_cuisines rid b.cuisines with
  | none => rw [h1] at h; simp at h
  | some p1 =>
    obtain ⟨c, jc⟩ := p1
    rw [h1] at h
    simp only [Option.bind_eq_bind, Option.some_bind] at h
    cases h2 : addNames Lookup.name Lookup.id mkLookup st.types
        st.restaurant_types rid b.types with
    | none => rw [h2] at h; simp at h
    | some p2 =>
      obtain ⟨t, jt⟩ := p2
      rw [h2] at h
      simp only [Option.some_bind] at h
      cases h3 : addNames Lookup.name Lookup.id mkLookup st.neighborhoods
          st.restaurant_neighborhoods rid b.neighborhoods with
      | none => rw [h3] at h; simp at h
      | some p3 =>
        obtain ⟨n, jn⟩ := p3
        rw [h3] at h
        simp only [Option.some_bind] at h
        cases h4 : addNames TagRow.name TagRow.id mkTag st.tags
            st.restaurant_tags rid b.tags with
        | none => rw [h4] at h; simp at h
        | some p4 =>
          obtain ⟨g, jg⟩ := p4
          rw [h4] at h
          simp only [Option.some_bind, Option.some.injEq] at h
          subst h
          exact ⟨addNames_nodup hp.1 h1, addNames_nodup hp.2.1 h2,
            addNames_nodup hp.2.2.1 h3, addNames_nodup hp.2.2.2 h4⟩

theorem updateCTNT_pairsOk {st st' : DB} {rid : Nat} {b : UpdateReq}
    (hp : pairsOk st)
    (h : updateCuisinesTypesNeighborhoodsAndTags st rid b = some st') :
    pairsOk st' := by
  unfold updateCuisinesTypesNeighborhoodsAndTags at h
  cases h1 : rewriteNames Lookup.name Lookup.id mkLookup st.cuisines
      st.restaurant_cuisines rid b.cuisines with
  | none => rw [h1] at h; simp at h
  | some p1 =>
    obtain ⟨c, jc⟩ := p1
    rw [h1] at h
    simp only [Option.bind_eq_bind, Option.some_bind] at h
    cases h2 : rewriteNames Lookup.name Lookup.id mkLookup st.types
        st.restaurant_types rid b.types with
    | none => rw [h2] at h; simp at h
    | some p2 =>
      obtain ⟨t, jt⟩ := p2
      rw [h2] at h
      simp only [Option.some_bind] at h
      cases h3 : rewriteNames Lookup.name Lookup.id mkLookup st.neighborhoods
          st.restaurant_neighborhoods rid b.neighborhoods with
      | none => rw [h3] at h; simp at h
      | some p3 =>
        obtain ⟨n, jn⟩ := p3
        rw [h3] at h
        simp only [Option.some_bind] at h
        cases h4 : rewriteNames TagRow.name TagRow.id mkTag st.tags
            st.restaurant_tags rid b.tags with
        | none => rw [h4] at h; simp at h
        | some p4 =>
          obtain ⟨g, jg⟩ := p4
          rw [h4] at h
          simp only [Option.some_bind, Option.some.injEq] at h
          subst h
          unfold rewriteNames at h1 h2 h3 h4
          exact ⟨addNames_nodup (List.Nodup.filter _ hp.1) h1,
            addNames_nodup (List.Nodup.filter _ hp.2.1) h2,
            addNames_nodup (List.Nodup.filter _ hp.2.2.1) h3,
            addNames_nodup (List.Nodup.filter _ hp.2.2.2) h4⟩


theorem postRestaurant_pairsOk (st : DB) (b : CreateReq) (hp : pairsOk st) :
    pairsOk (postRestaurant st b).2 := by
  unfold postRestaurant
  dsimp only
  split
  · exact hp
  · split
    · exact hp
    · split
      · exact hp
      · rename_i st2 hrel
        refine handleRel_pairsOk ?_ hrel
        exact hp

theorem putRestaurant_pairsOk (st : DB) (rid : Nat) (b : UpdateReq)
    (hp : pairsOk st) : pairsOk (putRestaurant st rid b).2 := by
  unfold putRestaurant
  dsimp only
  split
  · exact hp
  · split
    · exact hp
    · rename_i st1 hstep
      split
      · exact hp
      · rename_i st2 hupd
        have hp1 : pairsOk st1 := by
          split at hstep
          · split at hstep
            · injection hstep with h
              subst h
              exact hp
            · cases hstep
          · injection hstep with h
            subst h
            exact hp
        exact updateCTNT_pairsOk hp1 hupd

theorem deleteRestaurant_pairsOk (st : DB) (rid : Nat) (hp : pairsOk st) :
    pairsOk (deleteRestaurant st rid).2 := by
  unfold deleteRestaurant
  dsimp only
  split
  · exact hp
  · exact ⟨List.Nodup.filter _ hp.1, List.Nodup.filter _ hp.2.1,
      hp.2.2.1, List.Nodup.filter _ hp.2.2.2⟩

/-- C6 counterexample: creating a restaurant with the duplicated cuisine
list Italian, Italian does not produce one lookup row and one association
row - the second plain INSERT into the join table violates (restaurant,
lookup) pair uniqueness, the whole transaction rolls back, and the request
fails with a 500, leaving the database unchanged (no Italian row at all). -/
theorem claim6_counterexample :
    (postRestaurant stEmpty
      { name := some "Alpha", cuisines := ["Italian", "Italian"] }).1 =
        PostResult.serverError ∧
      (postRestaurant stEmpty
        { name := some "Alpha", cuisines := ["Italian", "Italian"] }).2 =
        stEmpty := by
  decide

/-- C6 amended: creating with a duplicated cuisine name fails with 500 and
persists nothing, because the association insert is a plain INSERT rather
than insert-or-ignore; association rows do stay unique per (restaurant,
lookup) pair across the create, update and delete handlers. -/
theorem claim6_amended :
    (∀ st : DB, WF st → ∀ rname : String, trimStr rname ≠ "" →
      postRestaurant st
        { name := some rname, cuisines := ["Italian", "Italian"] } =
        (PostResult.serverError, st)) ∧
    (∀ (st : DB) (b : CreateReq), pairsOk st →
      pairsOk (postRestaurant st b).2) ∧
    (∀ (st : DB) (rid : Nat) (b : UpdateReq), pairsOk st →
      pairsOk (putRestaurant st rid b).2) ∧
    (∀ (st : DB) (rid : Nat), pairsOk st →
      pairsOk (deleteRestaurant st rid).2) := by
  refine ⟨?_, postRestaurant_pairsOk, putRestaurant_pairsOk,
    deleteRestaurant_pairsOk⟩
  intro st hwf rname hrname
  obtain ⟨-, -, hCnm, -, -, -, -, -, -, hJC, -, -, -, -⟩ := hwf
  have hdup : addNames Lookup.name Lookup.id mkLookup st.cuisines
      st.restaurant_cuisines (maxIdBy Restaurant.id st.restaurants + 1)
      ["Italian", "Italian"] = none :=
    addNames_dup_fails Lookup.name Lookup.id mkLookup (fun _ _ => rfl)
      hCnm (join_fst_ne_fresh hJC)
  have hbeq : (trimStr rname == "") = false := beq_eq_false_iff_ne.mpr hrname
  simp only [postRestaurant, hbeq, Bool.false_eq_true, if_neg,
    not_false_iff, handleRestaurantRelationships, hdup,
    Option.bind_eq_bind, Option.none_bind]

/-- Witness for the amended C6: the duplicate create fails on a concrete
well-formed state. -/
theorem claim6_witness :
    postRestaurant stBase
      { name := some "Beta", cuisines := ["Italian", "Italian"] } =
      (PostResult.serverError, stBase) :=
  claim6_amended.1 stBase (by decide) "Beta" (by decide)

/-! ## Claim C9: create with one cuisine, then fetch -/

/-- C9: a POST with a non-blank name and the single cuisine Diner succeeds
with the fresh id, and fetching that id returns an object whose cuisines
list is exactly Diner, whose liked is the boolean false, and whose status
is the default Unvisited. -/
theorem claim9_create_then_get (st : DB) (hwf : WF st) (rname : String)
    (hrname : trimStr rname ≠ "") :
    (postRestaurant st { name := some rname, cuisines := ["Diner"] }).1 =
      PostResult.created (maxIdBy Restaurant.id st.restaurants + 1) ∧
    (getRestaurantById
        (postRestaurant st { name := some rname, cuisines := ["Diner"] }).2
        (maxIdBy Restaurant.id st.restaurants + 1)).map Shaped.cuisines =
      some ["Diner"] ∧
    (getRestaurantById
        (postRestaurant st { name := some rname, cuisines := ["Diner"] }).2
        (maxIdBy Restaurant.id st.restaurants + 1)).map Shaped.liked =
      some false ∧
    (getRestaurantById
        (postRestaurant st { name := some rname, cuisines := ["Diner"] }).2
        (maxIdBy Restaurant.id st.restaurants + 1)).map Shaped.status =
      some (some "Unvisited") := by
  obtain ⟨hRid, hCid, hCnm, -, -, -, -, -, -, hJC, -, -, -, -⟩ := hwf
  obtain ⟨row, hrow, hname, hpost⟩ :=
    postRestaurant_single_cuisine st rname "Diner" hCnm hJC hrname
  rw [show trimStr "Diner" = "Diner" from by decide] at hrow hname hpost
  obtain ⟨newRow, hnr⟩ : ∃ nr : Restaurant, nr =
      { id := maxIdBy Restaurant.id st.restaurants + 1
        name := trimStr rname
        status := some "Unvisited" } := ⟨_, rfl⟩
  rw [← hnr] at hpost
  have hfind : (st.restaurants ++ [newRow]).find?
      (fun r => r.id == maxIdBy Restaurant.id st.restaurants + 1) =
      some newRow :=
    find?_append_fresh (fun r hr => maxIdBy_succ_fresh Restaurant.id r hr)
      (by rw [hnr])
  have hjoin : joinIdsFor (st.restaurant_cuisines ++
      [(maxIdBy Restaurant.id st.restaurants + 1, row.id)])
      (maxIdBy Restaurant.id st.restaurants + 1) = [row.id] := by
    rw [joinIdsFor_append_single,
      joinIdsFor_nil_of_fresh (join_fst_ne_fresh hJC)]
    rfl
  have htids : ((insertOrIgnoreTbl Lookup.name Lookup.id mkLookup
      st.cuisines "Diner").map Lookup.id).Nodup :=
    insertOrIgnore_ids_nodup Lookup.name Lookup.id mkLookup
      (fun _ _ => rfl) hCid
  have hnames : namesByIds Lookup.name Lookup.id
      (insertOrIgnoreTbl Lookup.name Lookup.id mkLookup st.cuisines "Diner")
      [row.id] = [row.name] :=
    namesByIds_single Lookup.name Lookup.id htids hrow
  refine ⟨by rw [hpost], ?_, ?_, ?_⟩
  · rw [hpost]
    simp only [getRestaurantById]
    rw [hfind]
    simp only [Option.map_some', shape]
    have hid : newRow.id = maxIdBy Restaurant.id st.restaurants + 1 := by
      rw [hnr]
    rw [hid, hjoin, hnames, hname]
    decide
  · rw [hpost]
    simp only [getRestaurantById]
    rw [hfind]
    rw [hnr]
    simp [shape]
  · rw [hpost]
    simp only [getRestaurantById]
    rw [hfind]
    rw [hnr]
    simp [shape]

/-- Witness for C9 on a concrete well-formed state. -/
theorem claim9_witness :
    (postRestaurant stBase { name := some "Joes", cuisines := ["Diner"] }).1 =
      PostResult.created 2 ∧
    (getRestaurantById
        (postRestaurant stBase
          { name := some "Joes", cuisines := ["Diner"] }).2 2).map
      Shaped.cuisines = some ["Diner"] ∧
    (getRestaurantById
        (postRestaurant stBase
          { name := some "Joes", cuisines := ["Diner"] }).2 2).map
      Shaped.liked = some false ∧
    (getRestaurantById
        (postRestaurant stBase
          { name := some "Joes", cuisines := ["Diner"] }).2 2).map
      Shaped.status = some (some "Unvisited") :=
  claim9_create_then_get stBase (by decide) "Joes" (by decide)

/-! ## Claim C2: the cross-category filter -/

theorem catConds_q2 (st : DB) (r : Restaurant) :
    catConds st qItalianThaiManhattan r =
      [anyLike ["Italian", "Thai"] (aggOpt (namesByIds Lookup.name Lookup.id
        st.cuisines (joinIdsFor st.restaurant_cuisines r.id)))] := by
  have h1 : (truthyP qItalianThaiManhattan.cuisines &&
      !(paramList qItalianThaiManhattan.cuisines).isEmpty) = true := by decide
  have h2 : truthyP qItalianThaiManhattan.neighborhoods = false := by decide
  have h3 : truthyP qItalianThaiManhattan.types = false := by decide
  have h4 : truthyP qItalianThaiManhattan.tags = false := by decide
  have h5 : paramList qItalianThaiManhattan.cuisines = ["Italian", "Thai"] :=
    by decide
  have h6 : truthyP qItalianThaiManhattan.cuisines = true := by decide
  unfold catConds
  rw [h5] at h1 ⊢
  simp [h1, h2, h3, h4, h6]

/-- C2 counterexample: with the cuisines filter Italian,Thai and the
borough filter Manhattan, a Manhattan restaurant whose only cuisine is
Italianate is returned even though it has neither the cuisine Italian nor
the cuisine Thai, because the per-value tests are LIKE substring tests on
the aggregated name string - so the result is not exactly the set the
claim describes. -/
theorem claim2_counterexample :
    shape stItalianate
        { id := 1, name := "Alpha", borough := some "Manhattan" } ∈
      restaurantRows stItalianate qItalianThaiManhattan ∧
    "Italian" ∉ cuisineNames stItalianate 1 ∧
    "Thai" ∉ cuisineNames stItalianate 1 := by
  decide

/-- C2 amended: under the default limit and offset, the request
cuisines=Italian,Thai with boroughs=Manhattan returns exactly the
restaurants whose borough equals Manhattan and that have at least one
cuisine whose name contains Italian or Thai as a case-insensitive
substring; within the category the two values combine by OR and the
borough equality combines with the category filter by AND. -/
theorem claim2_amended (st : DB) (hlen : st.restaurants.length ≤ 10000) :
    listRestaurants st qItalianThaiManhattan =
      Except.ok (restaurantRows st qItalianThaiManhattan) ∧
    ∀ r : Restaurant,
      shape st r ∈ restaurantRows st qItalianThaiManhattan ↔
        (r ∈ st.restaurants ∧ r.borough = some "Manhattan" ∧
          ∃ nm ∈ cuisineNames st r.id,
            (containsCI nm "Italian" = true ∨ containsCI nm "Thai" = true)) := by
  constructor
  · simp [listRestaurants,
      show malformedQuery qItalianThaiManhattan = false from by decide]
  · intro r
    rw [mem_restaurantRows hlen rfl]
    have hpre : preFilter qItalianThaiManhattan r = true ↔
        r.borough = some "Manhattan" := by
      simp [preFilter, qItalianThaiManhattan]
    have hpost : postGroupPass st qItalianThaiManhattan r = true ↔
        ∃ nm ∈ cuisineNames st r.id,
          (containsCI nm "Italian" = true ∨ containsCI nm "Thai" = true) := by
      unfold postGroupPass
      rw [catConds_q2]
      rw [show truthyP qItalianThaiManhattan.search = false from by decide]
      dsimp only
      simp only [List.isEmpty_cons, Bool.false_eq_true, if_neg,
        not_false_iff, List.all_cons, List.all_nil, Bool.and_true]
      rw [anyLike_aggOpt_iff (by decide)]
      unfold cuisineNames
      simp only [List.mem_cons, List.not_mem_nil, or_false]
      constructor
      · rintro ⟨nm, hnm, v, hv, hc⟩
        rcases hv with rfl | rfl
        · exact ⟨nm, hnm, Or.inl hc⟩
        · exact ⟨nm, hnm, Or.inr hc⟩
      · rintro ⟨nm, hnm, hc | hc⟩
        · exact ⟨nm, hnm, "Italian", Or.inl rfl, hc⟩
        · exact ⟨nm, hnm, "Thai", Or.inr rfl, hc⟩
    rw [hpre, hpost]

/-- Witness for the amended C2: the Manhattan restaurant with cuisine
Italian is in the result. -/
theorem claim2_witness :
    shape stBase { id := 1, name := "Alpha", borough := some "Manhattan" } ∈
      restaurantRows stBase qItalianThaiManhattan :=
  ((claim2_amended stBase (by decide)).2 _).mpr (by decide)

/-! ## Claim C3: free-text search ORs with category filters -/

theorem anyLike_of_exact {vals names : List String}
    (h : ∃ v ∈ vals, v ∈ dedupFirst names) :
    anyLike vals (aggOpt names) = true := by
  obtain ⟨v, hv, hmem⟩ := h
  exact List.any_eq_true.mpr ⟨v, hv,
    aggLike_of_mem_names (mem_dedupFirst.mp hmem) (containsCI_refl v)⟩

theorem all_if_single {p : Prop} [Decidable p] {b : Bool}
    (h : p → b = true) :
    ((if p then [b] else []).all (fun x => x)) = true := by
  by_cases hp : p
  · simp [hp, h hp]
  · simp [hp]

theorem searchCond_of_spec {st : DB} {r : Restaurant} {s : String}
    (h : specTextMatch st r s = true) : searchCond st r s = true := by
  unfold specTextMatch at h
  unfold searchCond
  simp only [Bool.or_eq_true] at h ⊢
  rcases h with (((h | h) | h) | h) | h
  · exact Or.inl (Or.inl (Or.inl (Or.inl (Or.inl (Or.inl (Or.inl h))))))
  · exact Or.inl (Or.inl (Or.inl (Or.inl (Or.inl (Or.inl (Or.inr h))))))
  · exact Or.inl (Or.inl (Or.inl (Or.inl (Or.inl (Or.inr h)))))
  · exact Or.inl (Or.inl (Or.inl (Or.inl (Or.inr h))))
  · rcases List.any_eq_true.mp h with ⟨nm, hmem, hc⟩
    rcases List.mem_append.mp hmem with hmem2 | hg
    · rcases List.mem_append.mp hmem2 with hmem3 | hn
      · rcases List.mem_append.mp hmem3 with hcui | ht
        · exact Or.inl (Or.inl (Or.inl (Or.inr
            (aggLike_of_mem_names (mem_dedupFirst.mp hcui) hc))))
        · exact Or.inl (Or.inl (Or.inr
            (aggLike_of_mem_names (mem_dedupFirst.mp ht) hc)))
      · exact Or.inl (Or.inr (aggLike_of_mem_names (mem_dedupFirst.mp hn) hc))
    · exact Or.inr (aggLike_of_mem_names (mem_dedupFirst.mp hg) hc)

theorem catConds_all_of_specCatMatch {st : DB} {q : ListQuery}
    {r : Restaurant} (hm : specCatMatch st q r) :
    (catConds st q r).all (fun b => b) = true := by
  obtain ⟨h1, h2, h3, h4⟩ := hm
  unfold catConds
  simp only [List.all_append, Bool.and_eq_true]
  exact ⟨⟨⟨all_if_single
      (fun hc => anyLike_of_exact (h1 (Bool.and_eq_true .. ▸ hc))),
    all_if_single
      (fun hc => anyLike_of_exact (h2 (Bool.and_eq_true .. ▸ hc)))⟩,
    all_if_single
      (fun hc => anyLike_of_exact (h3 (Bool.and_eq_true .. ▸ hc)))⟩,
    all_if_single
      (fun hc => anyLike_of_exact (h4 (Bool.and_eq_true .. ▸ hc)))⟩

theorem catConds_ne_nil_of_active {st : DB} {q : ListQuery} {r : Restaurant}
    (ha : anyCatActive q = true) : (catConds st q r).isEmpty = false := by
  unfold anyCatActive at ha
  unfold catConds
  simp only [Bool.or_eq_true] at ha
  rcases ha with ((h | h) | h) | h <;> simp [h]

/-- C3: with a search term and any combination of category filter
parameters (no borough/status/liked filter, default paging), a restaurant
whose text matches per the spec wording (case-insensitive substring of
name, notes, what-to-order, borough, or one of its aggregated
cuisine/type/neighborhood/tag names) is included even if it fails every
category filter; and a restaurant matching every active category filter
exactly is included even if its text does not match: the search condition
is ORed onto the HAVING clause. -/
theorem claim3_search_or_filters (st : DB) (q : ListQuery) (r : Restaurant)
    (s : String) (hq : q.search = some s) (hs : s ≠ "")
    (hb : q.boroughs = none) (hstat : q.status = none) (hlk : q.liked = none)
    (hlen : st.restaurants.length ≤ q.limit) (hoff : q.offset = 0)
    (hmal : malformedQuery q = false) (hr : r ∈ st.restaurants) :
    listRestaurants st q = Except.ok (restaurantRows st q) ∧
    (specTextMatch st r s = true → shape st r ∈ restaurantRows st q) ∧
    (anyCatActive q = true → specCatMatch st q r →
      shape st r ∈ restaurantRows st q) := by
  have htr : truthyP q.search = true := by
    rw [hq]
    simpa [truthyP] using hs
  have hpostgen : ∀ (hcond : searchCond st r s = true ∨
      ((catConds st q r).isEmpty = false ∧
        (catConds st q r).all (fun b => b) = true)),
      postGroupPass st q r = true := by
    intro hcond
    unfold postGroupPass
    rw [htr, hq]
    dsimp only
    rcases hcond with h | ⟨hne, hall⟩
    · by_cases he : (catConds st q r).isEmpty
      · simp [he, h]
      · simp [he, h]
    · simp [hne, hall]
  refine ⟨by simp [listRestaurants, hmal], ?_, ?_⟩
  · intro htext
    exact (mem_restaurantRows hlen hoff).mpr ⟨hr,
      preFilter_none hb hstat hlk r,
      hpostgen (Or.inl (searchCond_of_spec htext))⟩
  · intro hact hcat
    exact (mem_restaurantRows hlen hoff).mpr ⟨hr,
      preFilter_none hb hstat hlk r,
      hpostgen (Or.inr ⟨catConds_ne_nil_of_active hact,
        catConds_all_of_specCatMatch hcat⟩)⟩

/-- Witness for C3: a restaurant whose notes contain negroni is returned
although it fails the active cuisines=Thai filter. -/
theorem claim3_witness :
    shape stDante
        { id := 1, name := "Dante", notes := some "best negroni in town" } ∈
      restaurantRows stDante
        { search := some "negroni", cuisines := some "Thai" } :=
  (claim3_search_or_filters stDante
      { search := some "negroni", cuisines := some "Thai" }
      { id := 1, name := "Dante", notes := some "best negroni in town" }
      "negroni" rfl (by decide) rfl rfl rfl (by decide) rfl (by decide)
      (by decide)).2.1 (by decide)

/-! ## Claim C10: round-tripping lookup names through create and fetch -/

theorem aggOpt_single (x : String) : aggOpt [x] = some x := by
  unfold aggOpt
  simp [dedupFirst, joinComma, joinCommaData, string_mk_data]

theorem splitIfTruthy_single {s : String} (hne : s ≠ "")
    (hnc : ',' ∉ s.data) : splitIfTruthy (some s) = [s] := by
  unfold splitIfTruthy
  dsimp only
  rw [if_neg (by simpa using hne)]
  exact splitCh_single hnc

theorem splitIfTruthy_no_comma (agg : Option String) :
    ∀ e ∈ splitIfTruthy agg, ',' ∉ e.data := by
  intro e he
  unfold splitIfTruthy at he
  cases agg with
  | none => cases he
  | some s =>
    dsimp only at he
    by_cases hs : (s == "") = true
    · simp [hs] at he
    · rw [if_neg (by simpa using hs)] at he
      exact splitCh_no_ch s e he

theorem mem_insertOrIgnore {α : Type} (getN : α → String) (getI : α → Nat)
    (mkRow : Nat → String → α) {tbl : List α} {nm : String} {x : α}
    (h : x ∈ insertOrIgnoreTbl getN getI mkRow tbl nm) :
    x ∈ tbl ∨ x = mkRow (maxIdBy getI tbl + 1) nm := by
  unfold insertOrIgnoreTbl at h
  by_cases hany : tbl.any (fun l => getN l == nm)
  · rw [if_pos hany] at h
    exact Or.inl h
  · rw [if_neg hany] at h
    rcases List.mem_append.mp h with h1 | h2
    · exact Or.inl h1
    · exact Or.inr (List.mem_singleton.mp h2)

theorem splitChAux_ne_nil {ch : Char} (l acc : List Char) :
    splitChAux ch l acc ≠ [] := by
  induction l generalizing acc with
  | nil => simp [splitChAux]
  | cons c t ih =>
    cases hceq : c == ch
    · rw [show splitChAux ch (c :: t) acc = splitChAux ch t (c :: acc) from
        by simp [splitChAux, hceq]]
      exact ih (c :: acc)
    · simp [splitChAux, hceq]

theorem string_ne_empty_of_data {s : String} (h : s.data ≠ []) : s ≠ "" := by
  intro heq
  exact h (by simp [heq])

theorem tagPair_data (a b : String) :
    (a ++ ":" ++ b).data = a.data ++ ':' :: b.data := by
  rw [string_data_append, string_data_append,
    show (":" : String).data = [':'] from by decide, List.append_assoc]
  rfl

theorem shapeTag_name {a b : String} (ha : ':' ∉ a.data) :
    (shapeTag (a ++ ":" ++ b)).name = a := by
  unfold shapeTag splitCh
  rw [tagPair_data, splitChAux_break ha []]
  cases hsp : splitChAux ':' b.data [] with
  | nil => exact absurd hsp (splitChAux_ne_nil b.data [])
  | cons c cs => simp [string_mk_data]

/-- C10: creating a restaurant with a non-blank, comma-free (and, for
tags, colon-free) trimmed name in all four association lists and fetching
the fresh id by GET returns the trimmed name intact as an element of each
category list; and no fetched restaurant can ever carry a comma-containing
name in its cuisines list, because output shaping splits the aggregated
transport string on commas - so the round trip fails for such names. -/
theorem claim10_roundtrip (st : DB) (hwf : WF st) (rname nm bad : String)
    (hrname : trimStr rname ≠ "") (hnm : trimStr nm ≠ "")
    (hnc : ',' ∉ (trimStr nm).data) (hcol : ':' ∉ (trimStr nm).data)
    (hbad : ',' ∈ (trimStr bad).data) :
    ((postRestaurant st { name := some rname, cuisines := [nm], types := [nm], neighborhoods := [nm], tags := [nm] }).1 =
      PostResult.created (maxIdBy Restaurant.id st.restaurants + 1) ∧
     ∃ sh, getRestaurantById
        (postRestaurant st { name := some rname, cuisines := [nm], types := [nm], neighborhoods := [nm], tags := [nm] }).2
        (maxIdBy Restaurant.id st.restaurants + 1) = some sh ∧
      trimStr nm ∈ sh.cuisines ∧ trimStr nm ∈ sh.types ∧
      trimStr nm ∈ sh.neighborhoods ∧
      trimStr nm ∈ sh.tags.map TagOut.name) ∧
    (∀ (st2 : DB) (rid : Nat) (sh : Shaped),
      getRestaurantById st2 rid = some sh → trimStr bad ∉ sh.cuisines) := by
  have hpart2 : ∀ (st2 : DB) (rid : Nat) (sh : Shaped),
      getRestaurantById st2 rid = some sh → trimStr bad ∉ sh.cuisines := by
    intro st2 rid sh hget hmem
    unfold getRestaurantById at hget
    cases hfind : st2.restaurants.find? (fun r => r.id == rid) with
    | none => rw [hfind] at hget; cases hget
    | some r0 =>
      rw [hfind] at hget
      simp only [Option.map_some', Option.some.injEq] at hget
      subst hget
      simp only [shape] at hmem
      exact absurd hbad (splitIfTruthy_no_comma _ _ hmem)
  obtain ⟨hRid, hCid, hCnm, hTid, hTnm, hNid, hNnm, hGid, hGnm,
    hJC, hJT, hJN, hJG, hColors⟩ := hwf
  obtain ⟨rowC, hrowC, hnameC, heqC⟩ := @addNames_single Lookup Lookup.name
    Lookup.id mkLookup (fun _ _ => rfl) st.cuisines st.restaurant_cuisines
    (maxIdBy Restaurant.id st.restaurants + 1) nm hCnm (join_fst_ne_fresh hJC)
  obtain ⟨rowT, hrowT, hnameT, heqT⟩ := @addNames_single Lookup Lookup.name
    Lookup.id mkLookup (fun _ _ => rfl) st.types st.restaurant_types
    (maxIdBy Restaurant.id st.restaurants + 1) nm hTnm (join_fst_ne_fresh hJT)
  obtain ⟨rowN, hrowN, hnameN, heqN⟩ := @addNames_single Lookup Lookup.name
    Lookup.id mkLookup (fun _ _ => rfl) st.neighborhoods
    st.restaurant_neighborhoods
    (maxIdBy Restaurant.id st.restaurants + 1) nm hNnm (join_fst_ne_fresh hJN)
  obtain ⟨rowG, hrowG, hnameG, heqG⟩ := @addNames_single TagRow TagRow.name
    TagRow.id mkTag (fun _ _ => rfl) st.tags st.restaurant_tags
    (maxIdBy Restaurant.id st.restaurants + 1) nm hGnm (join_fst_ne_fresh hJG)
  obtain ⟨newRow, hnr⟩ : ∃ nr : Restaurant, nr =
      { id := maxIdBy Restaurant.id st.restaurants + 1
        name := trimStr rname
        status := some "Unvisited" } := ⟨_, rfl⟩
  have hbeq : (trimStr rname == "") = false := beq_eq_false_iff_ne.mpr hrname
  have hpost : postRestaurant st
      { name := some rname, cuisines := [nm], types := [nm], neighborhoods := [nm], tags := [nm] } =
      (PostResult.created (maxIdBy Restaurant.id st.restaurants + 1),
       { st with
          restaurants := st.restaurants ++ [newRow]
          cuisines := insertOrIgnoreTbl Lookup.name Lookup.id mkLookup
            st.cuisines (trimStr nm)
          restaurant_cuisines := st.restaurant_cuisines ++
            [(maxIdBy Restaurant.id st.restaurants + 1, rowC.id)]
          types := insertOrIgnoreTbl Lookup.name Lookup.id mkLookup
            st.types (trimStr nm)
          restaurant_types := st.restaurant_types ++
            [(maxIdBy Restaurant.id st.restaurants + 1, rowT.id)]
          neighborhoods := insertOrIgnoreTbl Lookup.name Lookup.id mkLookup
            st.neighborhoods (trimStr nm)
          restaurant_neighborhoods := st.restaurant_neighborhoods ++
            [(maxIdBy Restaurant.id st.restaurants + 1, rowN.id)]
          tags := insertOrIgnoreTbl TagRow.name TagRow.id mkTag
            st.tags (trimStr nm)
          restaurant_tags := st.restaurant_tags ++
            [(maxIdBy Restaurant.id st.restaurants + 1, rowG.id)] }) := by
    rw [hnr]
    simp only [postRestaurant, hbeq, Bool.false_eq_true, if_neg,
      not_false_iff, handleRestaurantRelationships, heqC, heqT, heqN, heqG,
      Option.bind_eq_bind, Option.some_bind, Option.getD_none]
  have hidr : newRow.id = maxIdBy Restaurant.id st.restaurants + 1 := by
    rw [hnr]
  have hfind : (st.restaurants ++ [newRow]).find?
      (fun r => r.id == maxIdBy Restaurant.id st.restaurants + 1) =
      some newRow :=
    find?_append_fresh (fun r hr => maxIdBy_succ_fresh Restaurant.id r hr)
      hidr
  refine ⟨⟨by rw [hpost], ?_⟩, hpart2⟩
  rw [hpost]
  simp only [getRestaurantById]
  rw [hfind]
  simp only [Option.map_some']
  refine ⟨_, rfl, ?_, ?_, ?_, ?_⟩
  · simp only [shape]
    rw [hidr, joinIdsFor_append_single,
      joinIdsFor_nil_of_fresh (join_fst_ne_fresh hJC), List.nil_append,
      namesByIds_single Lookup.name Lookup.id
        (insertOrIgnore_ids_nodup Lookup.name Lookup.id mkLookup
          (fun _ _ => rfl) hCid) hrowC,
      hnameC, aggOpt_single, splitIfTruthy_single hnm hnc]
    exact List.mem_singleton.mpr rfl
  · simp only [shape]
    rw [hidr, joinIdsFor_append_single,
      joinIdsFor_nil_of_fresh (join_fst_ne_fresh hJT), List.nil_append,
      namesByIds_single Lookup.name Lookup.id
        (insertOrIgnore_ids_nodup Lookup.name Lookup.id mkLookup
          (fun _ _ => rfl) hTid) hrowT,
      hnameT, aggOpt_single, splitIfTruthy_single hnm hnc]
    exact List.mem_singleton.mpr rfl
  · simp only [shape]
    rw [hidr, joinIdsFor_append_single,
      joinIdsFor_nil_of_fresh (join_fst_ne_fresh hJN), List.nil_append,
      namesByIds_single Lookup.name Lookup.id
        (insertOrIgnore_ids_nodup Lookup.name Lookup.id mkLookup
          (fun _ _ => rfl) hNid) hrowN,
      hnameN, aggOpt_single, splitIfTruthy_single hnm hnc]
    exact List.mem_singleton.mpr rfl
  · simp only [shape]
    have hcolor : ',' ∉ rowG.color.data := by
      rcases mem_insertOrIgnore TagRow.name TagRow.id mkTag hrowG with
        hin | hnew
      · exact (hColors rowG hin).1
      · rw [hnew]
        show ',' ∉ ("#6B7280" : String).data
        decide
    have hne2 : (trimStr nm ++ ":" ++ rowG.color) ≠ "" :=
      string_ne_empty_of_data (by rw [tagPair_data]; simp)
    have hnc2 : ',' ∉ (trimStr nm ++ ":" ++ rowG.color).data := by
      rw [tagPair_data]
      intro hmem
      rcases List.mem_append.mp hmem with h1 | h2
      · exact hnc h1
      · rcases List.mem_cons.mp h2 with h3 | h4
        · cases h3
        · exact hcolor h4
    rw [hidr, joinIdsFor_append_single,
      joinIdsFor_nil_of_fresh (join_fst_ne_fresh hJG), List.nil_append,
      namesByIds_single (fun t0 => t0.name ++ ":" ++ t0.color) TagRow.id
        (insertOrIgnore_ids_nodup TagRow.name TagRow.id mkTag
          (fun _ _ => rfl) hGid) hrowG,
      hnameG, aggOpt_single, splitIfTruthy_single hne2 hnc2]
    simp [shapeTag_name hcol]

/-- Witness for C10 at a concrete comma-free name and a concrete
comma-containing name. -/
theorem claim10_witness :
    ((postRestaurant stEmpty { name := some "Salumeria", cuisines := ["Wine Bar"], types := ["Wine Bar"], neighborhoods := ["Wine Bar"], tags := ["Wine Bar"] }).1 =
      PostResult.created 1 ∧
     ∃ sh, getRestaurantById
        (postRestaurant stEmpty { name := some "Salumeria", cuisines := ["Wine Bar"], types := ["Wine Bar"], neighborhoods := ["Wine Bar"], tags := ["Wine Bar"] }).2
        1 = some sh ∧
      "Wine Bar" ∈ sh.cuisines ∧ "Wine Bar" ∈ sh.types ∧
      "Wine Bar" ∈ sh.neighborhoods ∧
      "Wine Bar" ∈ sh.tags.map TagOut.name) ∧
    (∀ (st2 : DB) (rid : Nat) (sh : Shaped),
      getRestaurantById st2 rid = some sh → "a,b" ∉ sh.cuisines) :=
  claim10_roundtrip stEmpty (by decide) "Salumeria" "Wine Bar" "a,b"
    (by decide) (by decide) (by decide) (by decide) (by decide)
